import Mathlib

/-!
# Verification of the Bahmni/OpenMRS concept-dictionary import engine

Shallow embedding of `omrs/management/commands/sync_bahmni_db.py` (and the
classification helpers it uses) in Lean 4, together with theorems settling
the spec's claims about it.

Modelling conventions:
* Django tables become Lean lists of row structures inside a `Store`; a
  QuerySet `filter(...)` becomes `List.filter`, `get(...)` becomes a lookup
  that fails when no row matches, `aggregate(Max(..))` becomes an
  `Option Nat`-valued maximum (`None` on an empty table, as in Django, where
  the subsequent `None + 1` is a crash).
* Python exceptions (`KeyError`, `DoesNotExist`, `IndexError`, `TypeError`)
  become `Except` errors carrying the exception tag and the store at the
  moment the exception is raised (database writes performed before an
  exception persist, exactly as in the source, where there is no transaction
  around a record).
* Write-only nondeterministic audit columns (`uuid.uuid4()` values and
  `datetime.now()` timestamps) are omitted from rows: the source never reads
  them back and no filter key includes them.
* JSON numeric payloads (the numeric bound fields) are carried as `Int`;
  the source only copies them, never computes with them.
* Foreign and local ids are modelled as `Nat`; the source round-trips ids
  through `str`/`int`, which is the identity on natural numbers.
-/

namespace Omrs

/-! ## Input records (§6 of the spec; the JSON-lines objects) -/

/-- One entry of a concept record's `names` array. -/
structure NameRecord where
  name : String
  name_type : String
  locale : String
  locale_preferred : Bool
  voided : Bool
  external_id : String
  deriving DecidableEq, Repr

/-- One entry of a concept record's `descriptions` array. -/
structure DescriptionRecord where
  description : String
  locale : String
  external_id : String
  deriving DecidableEq, Repr

/-- The `extras` object of a concept record.  Every field is optional:
`none` models the key being absent from the JSON object (`'k' in extra`
is `isSome`, `extra['k']` is a lookup that raises `KeyError` on `none`). -/
structure Extras where
  is_set : Option Bool := none
  hi_critical : Option Int := none
  low_critical : Option Int := none
  hi_normal : Option Int := none
  low_normal : Option Int := none
  hi_absolute : Option Int := none
  low_absolute : Option Int := none
  units : Option String := none
  precise : Option Bool := none
  deriving DecidableEq, Repr

/-- A concept record of the concept input file. -/
structure ConceptRecord where
  id : Nat
  concept_class : String
  datatype : String
  retired : Bool
  external_id : String
  names : List NameRecord
  descriptions : List DescriptionRecord
  extras : Extras
  deriving DecidableEq, Repr

/-- A mapping record of the mapping input file.  URLs are carried as their
`"/"`-split segment lists (the source immediately splits them and only ever
reads segments); optional fields model JSON keys that may be absent. -/
structure MappingRecord where
  from_concept_url : List String
  to_concept_url : Option (List String) := none
  to_source_url : Option (List String) := none
  to_concept_code : Option String := none
  map_type : String
  creator : Nat
  retired : Bool
  concept_map_id : Option Nat := none
  deriving DecidableEq, Repr

/-! ## Store rows (the Django models the command writes) -/

/-- A `concept_class` dictionary row (looked up / created by name). -/
structure ConceptClassRow where
  name : String
  retired : Bool
  deriving DecidableEq, Repr

/-- A `concept` row.  The class and datatype foreign keys are carried by
name (the source resolves them by name before writing). -/
structure ConceptRow where
  concept_id : Nat
  retired : Bool
  datatype : String
  concept_class : String
  uuid : String
  is_set : Bool
  deriving DecidableEq, Repr

/-- A `concept_name` row. -/
structure ConceptNameRow where
  concept_id : Nat
  name : String
  concept_name_type : String
  locale : String
  locale_preferred : Bool
  voided : Bool
  uuid : String
  deriving DecidableEq, Repr

/-- A `concept_description` row. -/
structure ConceptDescriptionRow where
  concept_id : Nat
  description : String
  uuid : String
  locale : String
  deriving DecidableEq, Repr

/-- A `concept_numeric` row. -/
structure ConceptNumericRow where
  concept_id : Nat
  hi_absolute : Option Int
  hi_critical : Option Int
  hi_normal : Option Int
  low_critical : Option Int
  low_absolute : Option Int
  low_normal : Option Int
  units : String
  precise : Bool
  deriving DecidableEq, Repr

/-- A `concept_set` membership row (`concept` is the member). -/
structure ConceptSetRow where
  concept_set_id : Nat
  concept : Nat
  concept_set_owner : Nat
  creator : Nat
  deriving DecidableEq, Repr

/-- A `concept_answer` row. -/
structure ConceptAnswerRow where
  concept_answer_id : Nat
  question_concept : Nat
  answer_concept : Nat
  creator : Nat
  deriving DecidableEq, Repr

/-- A `concept_reference_term` row; the source foreign key is carried by
the reference source's name. -/
structure ConceptReferenceTermRow where
  concept_reference_term_id : Nat
  source : String
  code : String
  retired : Bool
  creator : Nat
  deriving DecidableEq, Repr

/-- A `concept_reference_map` row; `term_id` is the foreign key to
`ConceptReferenceTermRow.concept_reference_term_id`, `map_type` the
map-type name. -/
structure ConceptReferenceMapRow where
  concept_map_id : Nat
  concept : Nat
  term_id : Nat
  map_type : String
  creator : Nat
  deriving DecidableEq, Repr

/-- The destination relational store. -/
structure Store where
  concept_classes : List ConceptClassRow := []
  concept_datatypes : List String := []
  concepts : List ConceptRow := []
  concept_names : List ConceptNameRow := []
  concept_descriptions : List ConceptDescriptionRow := []
  concept_numerics : List ConceptNumericRow := []
  concept_sets : List ConceptSetRow := []
  concept_answers : List ConceptAnswerRow := []
  reference_sources : List String := []
  reference_terms : List ConceptReferenceTermRow := []
  reference_maps : List ConceptReferenceMapRow := []
  map_types : List String := []
  deriving DecidableEq, Repr

/-- The Correspondence Table `concepts_id_added`: foreign id → local id. -/
abbrev CorrespondenceTable := List (Nat × Nat)

instance exceptDecEq {ε α : Type} [DecidableEq ε] [DecidableEq α] :
    DecidableEq (Except ε α)
  | .error e, .error f =>
    if h : e = f then .isTrue (by rw [h]) else .isFalse (by simp [h])
  | .error _, .ok _ => .isFalse (by simp)
  | .ok _, .error _ => .isFalse (by simp)
  | .ok a, .ok b =>
    if h : a = b then .isTrue (by rw [h]) else .isFalse (by simp [h])

/-! ## Concept sync (`sync_concept`, sync_bahmni_db.py lines 286-434) -/

/-- The filter key of `ConceptName.objects.filter(name=…, concept_name_type=…,
locale=…, locale_preferred=…)` (lines 340-341 and 380-381). -/
def nameRowMatches (r : ConceptNameRow) (c : NameRecord) : Bool :=
  r.name == c.name && r.concept_name_type == c.name_type &&
    r.locale == c.locale && r.locale_preferred == c.locale_preferred

/-- `ConceptName.objects.filter(...)` over the store. -/
def nameMatches (s : Store) (c : NameRecord) : List ConceptNameRow :=
  s.concept_names.filter (fun r => nameRowMatches r c)

/-- The loop state of the name-matching loop of `sync_concept`
(lines 330-364): the `f_sp` flag, the `at_lst_one` flag and the running
`con_id`. -/
structure ResolveSt where
  f_sp : Bool
  at_lst_one : Bool
  con_id : Nat
  deriving DecidableEq, Repr

/-- The inner `for a in concept_name` loop of the `len > 1` branch
(lines 345-348): every FULLY_SPECIFIED row sets the flag and overwrites
`con_id` (the last one wins). -/
def fsScan (m : List ConceptNameRow) (f : Bool) (c : Nat) : Bool × Nat :=
  m.foldl
    (fun p a =>
      if a.concept_name_type == "FULLY_SPECIFIED" then (true, a.concept_id) else p)
    (f, c)

/-- One iteration of the name-matching loop of `sync_concept`
(lines 339-364). -/
def resolveStep (s : Store) (st : ResolveSt) (c : NameRecord) : ResolveSt :=
  match nameMatches s c with
  | [] => st
  | [r] =>
      if st.f_sp then { st with at_lst_one := true }
      else
        { f_sp := r.concept_name_type == "FULLY_SPECIFIED",
          at_lst_one := true, con_id := r.concept_id }
  | r :: b :: rest =>
      let p := fsScan (r :: b :: rest) st.f_sp st.con_id
      if p.1 then { f_sp := p.1, at_lst_one := true, con_id := p.2 }
      else { f_sp := p.1, at_lst_one := true, con_id := r.concept_id }

/-- The whole name-matching loop, starting from `f_sp = 0`, `at_lst_one = 0`
and `con_id = concept['id']`. -/
def resolveNames (s : Store) (ns : List NameRecord) (init : Nat) : ResolveSt :=
  ns.foldl (resolveStep s) ⟨false, false, init⟩

/-- Lines 305-315: find the ConceptClass row by name, creating it from the
record if absent. -/
def syncConceptClass (s : Store) (nm : String) (ret : Bool) : Store :=
  if s.concept_classes.any (fun r => r.name == nm) then s
  else { s with concept_classes := s.concept_classes ++ [⟨nm, ret⟩] }

/-- Lines 319-327: find the ConceptDatatype row by name, creating it if
absent. -/
def syncConceptDatatype (s : Store) (nm : String) : Store :=
  if s.concept_datatypes.any (fun r => r == nm) then s
  else { s with concept_datatypes := s.concept_datatypes ++ [nm] }

/-- `Concept.objects.aggregate(Max('concept_id'))` (line 370); only ever
evaluated when the table is known to be nonempty. -/
def maxConceptId (s : Store) : Nat :=
  (s.concepts.map (fun r => r.concept_id)).foldl max 0

/-- Lines 367-371: keep the record's foreign id as the new local id unless a
concept with that id already exists, in which case allocate max + 1. -/
def pickConceptId (s : Store) (cid : Nat) : Nat :=
  if s.concepts.any (fun r => r.concept_id == cid) then maxConceptId s + 1 else cid

/-- One iteration of the name-insertion loop (lines 379-388). -/
def insertName (conId : Nat) (s : Store) (n : NameRecord) : Store :=
  if (nameMatches s n).isEmpty then
    { s with concept_names := s.concept_names ++
        [⟨conId, n.name, n.name_type, n.locale, n.locale_preferred, n.voided,
          n.external_id⟩] }
  else s

/-- The whole name-insertion loop. -/
def insertNames (conId : Nat) (s : Store) (ns : List NameRecord) : Store :=
  ns.foldl (insertName conId) s

/-- The filter of `ConceptDescription.objects.filter(concept=…,
description=…, uuid=…)` (lines 393-395). -/
def descMatches (s : Store) (conId : Nat) (d : DescriptionRecord) :
    List ConceptDescriptionRow :=
  s.concept_descriptions.filter
    (fun r => r.concept_id == conId && r.description == d.description &&
      r.uuid == d.external_id)

/-- One iteration of the description-insertion loop (lines 392-402). -/
def insertDescription (conId : Nat) (s : Store) (d : DescriptionRecord) : Store :=
  if (descMatches s conId d).isEmpty then
    { s with concept_descriptions := s.concept_descriptions ++
        [⟨conId, d.description, d.external_id, d.locale⟩] }
  else s

/-- The whole description-insertion loop. -/
def insertDescriptions (conId : Nat) (s : Store) (ds : List DescriptionRecord) :
    Store :=
  ds.foldl (insertDescription conId) s

/-- `ConceptNumeric.objects.filter(concept=con_id)` (line 410). -/
def numericRows (s : Store) (cid : Nat) : List ConceptNumericRow :=
  s.concept_numerics.filter (fun r => r.concept_id == cid)

/-- The class/datatype-synced store used by the name loops of
`sync_concept` (lines 305-327). -/
def classDtStore (s : Store) (c : ConceptRecord) : Store :=
  syncConceptDatatype (syncConceptClass s c.concept_class c.retired) c.datatype

/-- The local id `sync_concept` resolves for a record: the name-loop result
when at least one name tuple matched, otherwise the freshly picked id of the
creation branch (lines 339-377). -/
def sync_concept_localId (s : Store) (c : ConceptRecord) : Nat :=
  let r := resolveNames (classDtStore s c) c.names c.id
  if r.at_lst_one then r.con_id else pickConceptId (classDtStore s c) r.con_id

/-- The store after the concept-creation step of `sync_concept` (lines
365-377): unchanged when some name tuple matched, otherwise the new Concept
row is appended. -/
def sync_concept_s3 (s : Store) (c : ConceptRecord) : Store :=
  if (resolveNames (classDtStore s c) c.names c.id).at_lst_one then
    classDtStore s c
  else
    { classDtStore s c with concepts := (classDtStore s c).concepts ++
        [⟨pickConceptId (classDtStore s c)
            (resolveNames (classDtStore s c) c.names c.id).con_id,
          c.retired, c.datatype, c.concept_class, c.external_id,
          c.extras.is_set.getD false⟩] }

/-- The store after everything `sync_concept` does before the numeric block:
class/datatype sync, concept creation when no name matched, name insertion
and description insertion (lines 298-402). -/
def sync_concept_preNumeric (s : Store) (c : ConceptRecord) : Store :=
  insertDescriptions (sync_concept_localId s c)
    (insertNames (sync_concept_localId s c) (sync_concept_s3 s c) c.names)
    c.descriptions

/-- `sync_concept` (lines 286-434).  Returns the Correspondence Table entry
recorded for the record (`none` when the falsy-id guard `if con_id:` at line
301 skips the record) together with the updated store; `.error` models an
uncaught Python exception. -/
def sync_concept (s : Store) (c : ConceptRecord) :
    Except String (Option Nat × Store) :=
  if c.id == 0 then .ok (none, s)
  else if c.datatype == "Numeric" then
    if (numericRows (sync_concept_preNumeric s c)
        (sync_concept_localId s c)).isEmpty then
      match c.extras.units with
      | none => .error "KeyError: units"
      | some u =>
        match c.extras.precise with
        | none => .error "KeyError: precise"
        | some p =>
          .ok (some (sync_concept_localId s c),
            { sync_concept_preNumeric s c with concept_numerics :=
                (sync_concept_preNumeric s c).concept_numerics ++
                [⟨sync_concept_localId s c, c.extras.hi_absolute,
                  c.extras.hi_critical, c.extras.hi_normal,
                  c.extras.low_critical, c.extras.low_absolute,
                  c.extras.low_normal, u, p⟩] })
    else .ok (some (sync_concept_localId s c), sync_concept_preNumeric s c)
  else .ok (some (sync_concept_localId s c), sync_concept_preNumeric s c)

/-! ## Mapping classification and sync (lines 465-601) -/

/-- The constants and the source-directory helper the command imports from
`OclOpenmrsHelper`.

Modelled from the spec: `OclOpenmrsHelper` lives in
`omrs/management/commands/__init__.py`, which is not under `src/`; per the
spec it supplies the set-membership and question/answer map-type constants
used by the dispatch of §4.4 and the OCL-to-OpenMRS reference-source-name
directory (`get_omrs_source_id_from_ocl_id`, which raises when the source id
is unknown — modelled as `none`). -/
structure Env where
  MAP_TYPE_CONCEPT_SET : String
  MAP_TYPE_Q_AND_A : String
  omrsSourceIdFromOclId : String → Option String

/-- `generate_internal_mapping` (lines 465-471): keep the records whose key
set contains `to_concept_url`. -/
def generate_internal_mapping (ms : List MappingRecord) : List MappingRecord :=
  ms.filter (fun i => i.to_concept_url.isSome)

/-- `generate_external_mapping` (lines 473-479): keep the records whose key
set contains `to_source_url`. -/
def generate_external_mapping (ms : List MappingRecord) : List MappingRecord :=
  ms.filter (fun i => i.to_source_url.isSome)

/-- Python's `int(..)` on a decimal-digit string, written as a structural
recursion over the characters (equivalent to `String.toNat?` on its domain,
but reducible by the kernel); `none` models the `ValueError` crash. -/
def parseNatSeg (s : String) : Option Nat :=
  match s.data with
  | [] => none
  | ds => go ds 0
where go : List Char → Nat → Option Nat
  | [], acc => some acc
  | c :: cs, acc =>
      if 48 ≤ c.toNat ∧ c.toNat ≤ 57 then go cs (acc * 10 + (c.toNat - 48))
      else none

/-- `int(url.split("/")[-2])`: the second-from-last path segment parsed as a
number (`none` models the IndexError/ValueError crash). -/
def urlIdSeg (u : List String) : Option Nat :=
  match u.reverse.get? 1 with
  | none => none
  | some seg => parseNatSeg seg

/-- `url.split("/")[-4]`: the fourth-from-last path segment (the embedded
source identifier of a from-concept URL, line 546). -/
def urlSourceSeg (u : List String) : Option String :=
  u.reverse.get? 3

/-- The result of a mapping-sync step: the updated store, or an uncaught
exception tag together with the store at the moment it was raised. -/
abbrev MapResult := Except (String × Store) Store

/-- Turn an optional value into a `MapResult`-style step, raising the given
exception tag over the given store when absent. -/
def fetch {α : Type} (o : Option α) (msg : String) (s : Store) :
    Except (String × Store) α :=
  match o with
  | some a => .ok a
  | none => .error (msg, s)

/-- The endpoint-resolution prefix shared verbatim by all three internal
branches (lines 484-491, 517-524 and 535-542): read the two URLs, parse the
two foreign ids, and translate both through the Correspondence Table
(`self.concepts_id_added`, an uncaught `KeyError` when an id is absent).
Returns `(con_id, to_con_id, new_con_id, new_to_con_id)`. -/
def resolveEndpoints (table : CorrespondenceTable) (s : Store)
    (i : MappingRecord) : Except (String × Store) (Nat × Nat × Nat × Nat) :=
  match i.to_concept_url with
  | none => .error ("KeyError: to_concept_url", s)
  | some tu =>
    match urlIdSeg i.from_concept_url with
    | none => .error ("ValueError: from_concept_url", s)
    | some conId =>
      match urlIdSeg tu with
      | none => .error ("ValueError: to_concept_url", s)
      | some toConId =>
        match table.lookup conId with
        | none => .error ("KeyError: concepts_id_added from", s)
        | some newConId =>
          match table.lookup toConId with
          | none => .error ("KeyError: concepts_id_added to", s)
          | some newToConId => .ok (conId, toConId, newConId, newToConId)

/-- The pure shape of `resolveEndpoints`: the pair of local ids the
Correspondence Table assigns to the record's endpoints, when everything
resolves. -/
def resolveEndpointIds (table : CorrespondenceTable) (i : MappingRecord) :
    Option (Nat × Nat) :=
  match i.to_concept_url with
  | none => none
  | some tu =>
    match urlIdSeg i.from_concept_url, urlIdSeg tu with
    | some conId, some toConId =>
      match table.lookup conId, table.lookup toConId with
      | some a, some b => some (a, b)
      | _, _ => none
    | _, _ => none

/-- `Concept.objects.get(concept_id=cid)` as an optional lookup. -/
def getConcept (s : Store) (cid : Nat) : Option ConceptRow :=
  s.concepts.find? (fun r => r.concept_id == cid)

/-- `ConceptSet.objects.all().aggregate(Max('concept_set_id'))`
(lines 496-497); `none` when the table is empty (Django's `None`, so the
source's `+ 1` crashes). -/
def maxSetId (s : Store) : Option Nat :=
  match s.concept_sets with
  | [] => none
  | _ => some ((s.concept_sets.map (fun r => r.concept_set_id)).foldl max 0)

/-- `ConceptAnswer.objects.all().aggregate(Max('concept_answer_id'))`
(line 529). -/
def maxAnswerId (s : Store) : Option Nat :=
  match s.concept_answers with
  | [] => none
  | _ => some ((s.concept_answers.map (fun r => r.concept_answer_id)).foldl max 0)

/-- `ConceptReferenceTerm.objects.all().aggregate(Max(..))` (lines 552, 587). -/
def maxTermId (s : Store) : Option Nat :=
  match s.reference_terms with
  | [] => none
  | _ =>
    some ((s.reference_terms.map (fun r => r.concept_reference_term_id)).foldl max 0)

/-- `ConceptReferenceMap.objects.all().aggregate(Max('concept_map_id'))`
(lines 563-564). -/
def maxRefMapId (s : Store) : Option Nat :=
  match s.reference_maps with
  | [] => none
  | _ => some ((s.reference_maps.map (fun r => r.concept_map_id)).foldl max 0)

/-- The existing set-membership edges `(owner, member)` (the filter of
line 494). -/
def setEdges (s : Store) (own mem : Nat) : List ConceptSetRow :=
  s.concept_sets.filter
    (fun r => r.concept_set_owner == own && r.concept == mem)

/-- The existing question/answer edges (the filter of line 527). -/
def answerEdges (s : Store) (q a : Nat) : List ConceptAnswerRow :=
  s.concept_answers.filter
    (fun r => r.question_concept == q && r.answer_concept == a)

/-- The reference terms matching `(code, source)` (the get of lines 550 and
585, keyed by code and reference source). -/
def termMatches (s : Store) (src code : String) : List ConceptReferenceTermRow :=
  s.reference_terms.filter (fun t => t.source == src && t.code == code)

/-- The generic cross-reference edges of a concept under a map type whose
term carries `(code, source)`: `ConceptReferenceMap` rows joined through
their reference term (the filter key of lines 560-561 / 594-595). -/
def refMapEdges (s : Store) (cid : Nat) (mt src code : String) :
    List ConceptReferenceMapRow :=
  s.reference_maps.filter
    (fun m => m.concept == cid && m.map_type == mt &&
      (s.reference_terms.any
        (fun t => t.concept_reference_term_id == m.term_id &&
          t.source == src && t.code == code)))

/-- The set-membership branch of `sync_internal_mapping` (lines 483-515). -/
def syncSetBranch (table : CorrespondenceTable) (s : Store)
    (i : MappingRecord) : MapResult :=
  match resolveEndpoints table s i with
  | .error e => .error e
  | .ok (_, _, newConId, newToConId) =>
    match getConcept s newConId with
    | none => .error ("Concept.DoesNotExist", s)
    | some _ =>
      match getConcept s newToConId with
      | none => .error ("Concept.DoesNotExist", s)
      | some _ =>
        if (setEdges s newConId newToConId).isEmpty then
          match maxSetId s with
          | none => .error ("TypeError: None + 1", s)
          | some mx =>
            .ok { s with concept_sets := s.concept_sets ++
                [⟨mx + 1, newToConId, newConId, i.creator⟩] }
        else .ok s

/-- The question/answer branch of `sync_internal_mapping` (lines 516-533). -/
def syncQandABranch (table : CorrespondenceTable) (s : Store)
    (i : MappingRecord) : MapResult :=
  match resolveEndpoints table s i with
  | .error e => .error e
  | .ok (_, _, newConId, newToConId) =>
    match getConcept s newConId with
    | none => .error ("Concept.DoesNotExist", s)
    | some _ =>
      match getConcept s newToConId with
      | none => .error ("Concept.DoesNotExist", s)
      | some _ =>
        if (answerEdges s newConId newToConId).isEmpty then
          match maxAnswerId s with
          | none => .error ("TypeError: None + 1", s)
          | some mx =>
            .ok { s with concept_answers := s.concept_answers ++
                [⟨mx + 1, newConId, newToConId, i.creator⟩] }
        else .ok s

/-- The generic cross-reference branch of `sync_internal_mapping`
(lines 534-568): find or create the reference term whose code is the
*foreign* target id under the source recovered from the from-URL, then
create the ConceptReferenceMap edge if the `(term, concept, map type)`
triple is absent.  The `ConceptMapType` filter of line 543 is a lazy
QuerySet whose first evaluation is the `concept_map_type[0]` argument of
line 561, after term creation. -/
def syncGenericBranch (env : Env) (table : CorrespondenceTable) (s : Store)
    (i : MappingRecord) : MapResult :=
  match resolveEndpoints table s i with
  | .error e => .error e
  | .ok (_, toConId, newConId, _) =>
    match getConcept s newConId with
    | none => .error ("Concept.DoesNotExist", s)
    | some _ =>
      match urlSourceSeg i.from_concept_url with
      | none => .error ("IndexError: from_concept_url", s)
      | some srcSeg =>
        match env.omrsSourceIdFromOclId srcSeg with
        | none => .error ("UnrecognizedSourceException", s)
        | some omrsId =>
          match s.reference_sources.find? (fun n => n == omrsId) with
          | none => .error ("ConceptReferenceSource.DoesNotExist", s)
          | some _ =>
            let code := toString toConId
            let termStep : Except (String × Store)
                (ConceptReferenceTermRow × Store) :=
              match termMatches s omrsId code with
              | [t] => .ok (t, s)
              | [] =>
                match maxTermId s with
                | none => .error ("TypeError: None + 1", s)
                | some mx =>
                  let t : ConceptReferenceTermRow :=
                    ⟨mx + 1, omrsId, code, i.retired, i.creator⟩
                  .ok (t, { s with reference_terms := s.reference_terms ++ [t] })
              | _ => .error ("MultipleObjectsReturned", s)
            match termStep with
            | .error e => .error e
            | .ok (term, s1) =>
              match s1.map_types.find? (fun n => n == i.map_type) with
              | none => .error ("IndexError: concept_map_type", s1)
              | some mt =>
                if (s1.reference_maps.filter
                    (fun m => m.term_id == term.concept_reference_term_id &&
                      m.concept == newConId && m.map_type == mt)).isEmpty then
                  match maxRefMapId s1 with
                  | none => .error ("TypeError: None + 1", s1)
                  | some mx =>
                    .ok { s1 with reference_maps := s1.reference_maps ++
                        [⟨mx + 1, newConId, term.concept_reference_term_id, mt,
                          i.creator⟩] }
                else .ok s1

/-- The body of `sync_internal_mapping`'s loop for one record
(lines 482-568): dispatch on the declared map type. -/
def sync_internal_mapping_one (env : Env) (table : CorrespondenceTable)
    (s : Store) (i : MappingRecord) : MapResult :=
  if i.map_type == env.MAP_TYPE_CONCEPT_SET then syncSetBranch table s i
  else if i.map_type == env.MAP_TYPE_Q_AND_A then syncQandABranch table s i
  else syncGenericBranch env table s i

/-- `sync_internal_mapping` (lines 481-568): the plain `for` loop over the
internal records; an uncaught exception aborts the remainder of the loop. -/
def sync_internal_mapping (env : Env) (table : CorrespondenceTable)
    (s : Store) (l : List MappingRecord) : MapResult :=
  l.foldlM (fun st i => sync_internal_mapping_one env table st i) s

/-- The body of `sync_external_mapping`'s loop for one record
(lines 570-601).  The term is found or created by `(code, source)`; the new
ConceptReferenceMap edge takes its row id from the record's
`concept_map_id` field. -/
def sync_external_mapping_one (env : Env) (table : CorrespondenceTable)
    (s : Store) (i : MappingRecord) : MapResult :=
  match i.to_source_url with
  | none => .error ("KeyError: to_source_url", s)
  | some tsu =>
    match i.to_concept_code with
    | none => .error ("KeyError: to_concept_code", s)
    | some code =>
      match urlIdSeg i.from_concept_url with
      | none => .error ("ValueError: from_concept_url", s)
      | some conId =>
        match tsu.reverse.get? 1 with
        | none => .error ("IndexError: to_source_url", s)
        | some srcSeg =>
          match env.omrsSourceIdFromOclId srcSeg with
          | none => .error ("UnrecognizedSourceException", s)
          | some omrsId =>
            match table.lookup conId with
            | none => .error ("KeyError: concepts_id_added", s)
            | some newConId =>
              let termStep : Except (String × Store)
                  (ConceptReferenceTermRow × Store) :=
                match termMatches s omrsId code with
                | [t] => .ok (t, s)
                | [] =>
                  match maxTermId s with
                  | none => .error ("TypeError: None + 1", s)
                  | some mx =>
                    match s.reference_sources.find? (fun n => n == omrsId) with
                    | none => .error ("IndexError: source", s)
                    | some src =>
                      let t : ConceptReferenceTermRow :=
                        ⟨mx + 1, src, code, i.retired, i.creator⟩
                      .ok (t,
                        { s with reference_terms := s.reference_terms ++ [t] })
                | _ => .error ("MultipleObjectsReturned", s)
              match termStep with
              | .error e => .error e
              | .ok (term, s1) =>
                match (s1.concepts.filter
                    (fun r => r.concept_id == newConId)).head? with
                | none => .error ("IndexError: concept", s1)
                | some concept =>
                  match s1.map_types.find? (fun n => n == i.map_type) with
                  | none => .error ("IndexError: concept_map_type", s1)
                  | some mt =>
                    if (s1.reference_maps.filter
                        (fun m =>
                          m.term_id == term.concept_reference_term_id &&
                          m.concept == concept.concept_id &&
                          m.map_type == mt)).isEmpty then
                      match i.concept_map_id with
                      | none => .error ("KeyError: concept_map_id", s1)
                      | some cmid =>
                        .ok { s1 with reference_maps := s1.reference_maps ++
                            [⟨cmid, concept.concept_id,
                              term.concept_reference_term_id, mt, i.creator⟩] }
                    else .ok s1

/-- `sync_external_mapping` (lines 570-601): the plain loop over the
external records. -/
def sync_external_mapping (env : Env) (table : CorrespondenceTable)
    (s : Store) (l : List MappingRecord) : MapResult :=
  l.foldlM (fun st i => sync_external_mapping_one env table st i) s

/-- Is a mapping-sync result a normal completion? -/
def mapResultOk : MapResult → Bool
  | .ok _ => true
  | .error _ => false

/-! ## Concrete fixtures (inputs for counterexamples and witnesses) -/

/-- A concrete helper environment: the two map-type constants and a total
source directory mapping an OCL source id `X` to the OpenMRS name
`X-omrs`. -/
def exEnv : Env := ⟨"CONCEPT-SET", "Q-AND-A", fun s => some (s ++ "-omrs")⟩

/-- A concrete Correspondence Table: foreign 7 ↦ local 5, foreign 8 ↦
local 6. -/
def exTable : CorrespondenceTable := [(7, 5), (8, 6)]

/-- An OCL concept URL, split at `/`: `/orgs/O/sources/CIEL/concepts/<seg>/`. -/
def conceptUrl (seg : String) : List String :=
  ["", "orgs", "O", "sources", "CIEL", "concepts", seg, ""]

/-- An internal mapping record between two foreign concept ids (given as
their URL segments). -/
def mkInternal (mt fromSeg toSeg : String) : MappingRecord :=
  { from_concept_url := conceptUrl fromSeg,
    to_concept_url := some (conceptUrl toSeg),
    map_type := mt, creator := 1, retired := false }

/-- A concrete store populated with the local concepts 5 and 6, one
unrelated row in each edge table (so the `Max(..) + 1` id allocators have
something to aggregate) and the map type `SAME-AS`. -/
def exStore : Store :=
  { concepts := [⟨5, false, "Text", "Test", "u5", false⟩,
                 ⟨6, false, "Text", "Test", "u6", false⟩],
    concept_sets := [⟨1, 3, 2, 9⟩],
    concept_answers := [⟨1, 3, 2, 9⟩],
    reference_sources := ["CIEL-omrs", "ICD-omrs"],
    reference_terms := [⟨4, "X", "c", false, 1⟩],
    reference_maps := [⟨2, 9, 4, "SAME-AS", 1⟩],
    map_types := ["SAME-AS"] }

/-- A set-membership mapping whose source endpoint (foreign 9) has no
Correspondence Table entry. -/
def exBadSetRec : MappingRecord := mkInternal "CONCEPT-SET" "9" "8"

/-- A well-formed set-membership mapping (foreign 7 → foreign 8). -/
def exGoodSetRec : MappingRecord := mkInternal "CONCEPT-SET" "7" "8"

/-- A question/answer mapping whose source endpoint has no Correspondence
Table entry. -/
def exBadQaRec : MappingRecord := mkInternal "Q-AND-A" "9" "8"

/-- A well-formed question/answer mapping. -/
def exGoodQaRec : MappingRecord := mkInternal "Q-AND-A" "7" "8"

/-- A self-mapping: both endpoints are foreign 7, so both resolve to
local 5. -/
def exSelfRec : MappingRecord := mkInternal "CONCEPT-SET" "7" "7"

/-- A mapping record carrying (unusually) both a target-concept reference
and a target-source reference plus code. -/
def exBothRec : MappingRecord :=
  { from_concept_url := conceptUrl "7",
    to_concept_url := some (conceptUrl "8"),
    to_source_url := some ["", "orgs", "I", "sources", "ICD", ""],
    to_concept_code := some "A01",
    map_type := "SAME-AS", creator := 1, retired := false }

/-- A mapping record carrying neither a target-concept nor a target-source
reference. -/
def exNeitherRec : MappingRecord :=
  { from_concept_url := conceptUrl "7",
    map_type := "SAME-AS", creator := 1, retired := false }

/-- A well-formed external mapping (foreign 7 → code A01 in source ICD),
carrying `concept_map_id = 77`. -/
def exExternalRec : MappingRecord :=
  { from_concept_url := conceptUrl "7",
    to_source_url := some ["", "orgs", "I", "sources", "ICD", ""],
    to_concept_code := some "A01",
    map_type := "SAME-AS", creator := 1, retired := false,
    concept_map_id := some 77 }

/-- A concrete concept record with one fully-specified name. -/
def exConRec : ConceptRecord :=
  { id := 7, concept_class := "Diagnosis", datatype := "Text", retired := false,
    external_id := "e7",
    names := [⟨"Fever", "FULLY_SPECIFIED", "en", true, false, "n1"⟩],
    descriptions := [⟨"d", "en", "de1"⟩], extras := {} }

/-- A store already holding an unrelated concept with local id 10 (and no
concept names). -/
def exStoreC : Store := { concepts := [⟨10, false, "Text", "Test", "u", false⟩] }

/-- A concrete numeric concept record (units and precision present, only
two of the six bounds present). -/
def exNumRec : ConceptRecord :=
  { id := 101, concept_class := "Diagnosis", datatype := "Numeric",
    retired := false, external_id := "e101",
    names := [⟨"Temp", "FULLY_SPECIFIED", "en", true, false, "n2"⟩],
    descriptions := [],
    extras := { hi_normal := some 38, low_normal := some 36,
                units := some "C", precise := some false } }

/-- The same numeric record with the `units` key absent from `extras`. -/
def exNumRecNoUnits : ConceptRecord :=
  { exNumRec with extras := { hi_normal := some 38, precise := some false } }

/-- The empty store. -/
def exEmptyStore : Store := {}

/-- The result of importing `exConRec` into `exStoreC` (entry and store;
falls back to the input store on error, which does not happen here). -/
def exConRecResult : Option Nat × Store :=
  (sync_concept exStoreC exConRec).toOption.getD (none, exStoreC)

/-- The result of importing the numeric record `exNumRec` into the empty
store. -/
def exNumRecResult : Option Nat × Store :=
  (sync_concept exEmptyStore exNumRec).toOption.getD (none, exEmptyStore)

/-- The store produced by importing `exGoodSetRec` into `exStore` (falls
back to the input store on error, which does not happen here). -/
def exSetOut : Store :=
  (sync_internal_mapping_one exEnv exTable exStore exGoodSetRec).toOption.getD
    exStore

/-- `exStore` with the reference term `(ICD-omrs, A01)` already present (id
4). -/
def exStoreT : Store :=
  { exStore with reference_terms := [⟨4, "ICD-omrs", "A01", false, 1⟩] }

/-- The ConceptName row built from a name tuple by the name-insertion loop
(lines 383-388). -/
def nameRowOf (cid : Nat) (n : NameRecord) : ConceptNameRow :=
  ⟨cid, n.name, n.name_type, n.locale, n.locale_preferred, n.voided,
    n.external_id⟩

/-- The per-name relation between the stores seen by a first and a second
run of the name-matching loop over the same record: either the name tuple
was absent on the first run and the second run sees exactly the one row the
first run inserted for it (carrying the recorded local id `L` and the
tuple's name type), or it was present and the second run sees the very same
match list. -/
def NameCase (sA sB : Store) (L : Nat) (n : NameRecord) : Prop :=
  (nameMatches sA n = [] ∧ ∃ r, nameMatches sB n = [r] ∧
    r.concept_id = L ∧ r.concept_name_type = n.name_type) ∨
  (nameMatches sA n ≠ [] ∧ nameMatches sB n = nameMatches sA n)

/-- The simulation invariant between the loop states of a first run (`st1`)
and a second run (`st2`) of the name-matching loop: the second run either
tracks the first exactly, or has already locked onto the recorded local id
`L`, possibly with its FULLY_SPECIFIED flag raised ahead of the first
run. -/
def ResolveInv (L : Nat) (st1 st2 : ResolveSt) : Prop :=
  (st2.f_sp = st1.f_sp ∧ st2.con_id = st1.con_id) ∨
  (st2.f_sp = st1.f_sp ∧ st2.con_id = L) ∨
  (st2.f_sp = true ∧ st1.f_sp = false ∧ st2.con_id = L)

/-! ## Basic lemmas about the embedding -/

theorem syncConceptClass_concept_names (s : Store) (nm : String) (ret : Bool) :
    (syncConceptClass s nm ret).concept_names = s.concept_names := by
  unfold syncConceptClass; split <;> rfl

theorem syncConceptClass_concepts (s : Store) (nm : String) (ret : Bool) :
    (syncConceptClass s nm ret).concepts = s.concepts := by
  unfold syncConceptClass; split <;> rfl

theorem syncConceptClass_concept_numerics (s : Store) (nm : String) (ret : Bool) :
    (syncConceptClass s nm ret).concept_numerics = s.concept_numerics := by
  unfold syncConceptClass; split <;> rfl

theorem syncConceptClass_concept_descriptions (s : Store) (nm : String)
    (ret : Bool) :
    (syncConceptClass s nm ret).concept_descriptions = s.concept_descriptions := by
  unfold syncConceptClass; split <;> rfl

theorem syncConceptDatatype_concept_names (s : Store) (nm : String) :
    (syncConceptDatatype s nm).concept_names = s.concept_names := by
  unfold syncConceptDatatype; split <;> rfl

theorem syncConceptDatatype_concepts (s : Store) (nm : String) :
    (syncConceptDatatype s nm).concepts = s.concepts := by
  unfold syncConceptDatatype; split <;> rfl

theorem syncConceptDatatype_concept_numerics (s : Store) (nm : String) :
    (syncConceptDatatype s nm).concept_numerics = s.concept_numerics := by
  unfold syncConceptDatatype; split <;> rfl

theorem syncConceptDatatype_concept_descriptions (s : Store) (nm : String) :
    (syncConceptDatatype s nm).concept_descriptions = s.concept_descriptions := by
  unfold syncConceptDatatype; split <;> rfl

theorem insertName_concepts (cid : Nat) (s : Store) (n : NameRecord) :
    (insertName cid s n).concepts = s.concepts := by
  unfold insertName; split <;> rfl

theorem insertName_concept_numerics (cid : Nat) (s : Store) (n : NameRecord) :
    (insertName cid s n).concept_numerics = s.concept_numerics := by
  unfold insertName; split <;> rfl

theorem insertName_concept_descriptions (cid : Nat) (s : Store) (n : NameRecord) :
    (insertName cid s n).concept_descriptions = s.concept_descriptions := by
  unfold insertName; split <;> rfl

theorem insertNames_concepts (cid : Nat) (s : Store) (ns : List NameRecord) :
    (insertNames cid s ns).concepts = s.concepts := by
  induction ns generalizing s with
  | nil => rfl
  | cons n ns ih =>
      show (insertNames cid (insertName cid s n) ns).concepts = s.concepts
      rw [ih, insertName_concepts]

theorem insertNames_concept_numerics (cid : Nat) (s : Store)
    (ns : List NameRecord) :
    (insertNames cid s ns).concept_numerics = s.concept_numerics := by
  induction ns generalizing s with
  | nil => rfl
  | cons n ns ih =>
      show (insertNames cid (insertName cid s n) ns).concept_numerics =
        s.concept_numerics
      rw [ih, insertName_concept_numerics]

theorem insertNames_concept_descriptions (cid : Nat) (s : Store)
    (ns : List NameRecord) :
    (insertNames cid s ns).concept_descriptions = s.concept_descriptions := by
  induction ns generalizing s with
  | nil => rfl
  | cons n ns ih =>
      show (insertNames cid (insertName cid s n) ns).concept_descriptions =
        s.concept_descriptions
      rw [ih, insertName_concept_descriptions]

theorem insertDescription_concepts (cid : Nat) (s : Store)
    (d : DescriptionRecord) :
    (insertDescription cid s d).concepts = s.concepts := by
  unfold insertDescription; split <;> rfl

theorem insertDescription_concept_names (cid : Nat) (s : Store)
    (d : DescriptionRecord) :
    (insertDescription cid s d).concept_names = s.concept_names := by
  unfold insertDescription; split <;> rfl

theorem insertDescription_concept_numerics (cid : Nat) (s : Store)
    (d : DescriptionRecord) :
    (insertDescription cid s d).concept_numerics = s.concept_numerics := by
  unfold insertDescription; split <;> rfl

theorem insertDescriptions_concepts (cid : Nat) (s : Store)
    (ds : List DescriptionRecord) :
    (insertDescriptions cid s ds).concepts = s.concepts := by
  induction ds generalizing s with
  | nil => rfl
  | cons d ds ih =>
      show (insertDescriptions cid (insertDescription cid s d) ds).concepts =
        s.concepts
      rw [ih, insertDescription_concepts]

theorem insertDescriptions_concept_names (cid : Nat) (s : Store)
    (ds : List DescriptionRecord) :
    (insertDescriptions cid s ds).concept_names = s.concept_names := by
  induction ds generalizing s with
  | nil => rfl
  | cons d ds ih =>
      show (insertDescriptions cid (insertDescription cid s d) ds).concept_names =
        s.concept_names
      rw [ih, insertDescription_concept_names]

theorem insertDescriptions_concept_numerics (cid : Nat) (s : Store)
    (ds : List DescriptionRecord) :
    (insertDescriptions cid s ds).concept_numerics = s.concept_numerics := by
  induction ds generalizing s with
  | nil => rfl
  | cons d ds ih =>
      show (insertDescriptions cid (insertDescription cid s d) ds).concept_numerics
        = s.concept_numerics
      rw [ih, insertDescription_concept_numerics]

theorem classDtStore_concept_numerics (s : Store) (c : ConceptRecord) :
    (classDtStore s c).concept_numerics = s.concept_numerics := by
  unfold classDtStore
  rw [syncConceptDatatype_concept_numerics, syncConceptClass_concept_numerics]

theorem sync_concept_s3_concept_numerics (s : Store) (c : ConceptRecord) :
    (sync_concept_s3 s c).concept_numerics = s.concept_numerics := by
  unfold sync_concept_s3
  split <;> exact classDtStore_concept_numerics s c

/-- `sync_concept` never touches the numeric table before its numeric
block. -/
theorem sync_concept_preNumeric_numerics (s : Store) (c : ConceptRecord) :
    (sync_concept_preNumeric s c).concept_numerics = s.concept_numerics := by
  unfold sync_concept_preNumeric
  rw [insertDescriptions_concept_numerics, insertNames_concept_numerics,
    sync_concept_s3_concept_numerics]

/-- When none of a record's name tuples matches any stored row, the
name-matching loop leaves its state untouched. -/
theorem resolveNames_fresh (s : Store) (ns : List NameRecord) (init : Nat)
    (h : ∀ n ∈ ns, nameMatches s n = []) :
    resolveNames s ns init = ⟨false, false, init⟩ := by
  unfold resolveNames
  induction ns with
  | nil => rfl
  | cons n ns ih =>
      rw [List.foldl_cons]
      have hn : nameMatches s n = [] := h n (List.mem_cons_self n ns)
      have hstep : resolveStep s ⟨false, false, init⟩ n = ⟨false, false, init⟩ := by
        unfold resolveStep; rw [hn]
      rw [hstep]
      exact ih (fun m hm => h m (List.mem_cons_of_mem n hm))

/-- `nameMatches` only reads the concept-name table. -/
theorem nameMatches_congr (s t : Store) (h : s.concept_names = t.concept_names)
    (n : NameRecord) : nameMatches s n = nameMatches t n := by
  unfold nameMatches; rw [h]

theorem classDtStore_concept_names (s : Store) (c : ConceptRecord) :
    (classDtStore s c).concept_names = s.concept_names := by
  unfold classDtStore
  rw [syncConceptDatatype_concept_names, syncConceptClass_concept_names]

theorem classDtStore_concepts (s : Store) (c : ConceptRecord) :
    (classDtStore s c).concepts = s.concepts := by
  unfold classDtStore
  rw [syncConceptDatatype_concepts, syncConceptClass_concepts]

/-- A successful `sync_concept` that records an entry records exactly the
resolved local id, and its final concept table is the pre-numeric one (the
numeric block never writes concepts). -/
theorem sync_concept_ok_parts (s : Store) (c : ConceptRecord) (lid : Nat)
    (s1 : Store) (h : sync_concept s c = .ok (some lid, s1)) :
    lid = sync_concept_localId s c ∧
    s1.concepts = (sync_concept_preNumeric s c).concepts := by
  rw [sync_concept] at h
  split at h
  · simp at h
  · split at h
    · split at h
      · split at h
        · simp at h
        · split at h
          · simp at h
          · simp only [Except.ok.injEq, Prod.mk.injEq, Option.some.injEq] at h
            obtain ⟨h1, h2⟩ := h
            subst h2
            exact ⟨h1.symm, rfl⟩
      · simp only [Except.ok.injEq, Prod.mk.injEq, Option.some.injEq] at h
        obtain ⟨h1, h2⟩ := h
        subst h2
        exact ⟨h1.symm, rfl⟩
    · simp only [Except.ok.injEq, Prod.mk.injEq, Option.some.injEq] at h
      obtain ⟨h1, h2⟩ := h
      subst h2
      exact ⟨h1.symm, rfl⟩

/-- Under fresh names the whole name loop matches nothing, so the local id
is the record's foreign id unless that id collides with an existing
concept. -/
theorem sync_concept_localId_fresh (s : Store) (c : ConceptRecord)
    (hfresh : ∀ n ∈ c.names, nameMatches s n = []) :
    sync_concept_localId s c =
      (if s.concepts.any (fun r => r.concept_id == c.id) then
        maxConceptId s + 1 else c.id) := by
  have hnm : ∀ n ∈ c.names, nameMatches (classDtStore s c) n = [] := by
    intro n hn
    rw [nameMatches_congr _ s (classDtStore_concept_names s c)]
    exact hfresh n hn
  show (let r := resolveNames (classDtStore s c) c.names c.id
    if r.at_lst_one then r.con_id else pickConceptId (classDtStore s c) r.con_id) = _
  rw [resolveNames_fresh _ _ _ hnm]
  show pickConceptId (classDtStore s c) c.id = _
  unfold pickConceptId maxConceptId
  rw [classDtStore_concepts]

/-- Under fresh names, the pre-numeric stage appends exactly the one new
Concept row built from the record. -/
theorem sync_concept_preNumeric_concepts_fresh (s : Store) (c : ConceptRecord)
    (hfresh : ∀ n ∈ c.names, nameMatches s n = []) :
    (sync_concept_preNumeric s c).concepts =
      s.concepts ++ [⟨sync_concept_localId s c, c.retired, c.datatype,
        c.concept_class, c.external_id, c.extras.is_set.getD false⟩] := by
  have hnm : ∀ n ∈ c.names, nameMatches (classDtStore s c) n = [] := by
    intro n hn
    rw [nameMatches_congr _ s (classDtStore_concept_names s c)]
    exact hfresh n hn
  unfold sync_concept_preNumeric
  rw [insertDescriptions_concepts, insertNames_concepts]
  unfold sync_concept_s3
  rw [resolveNames_fresh _ _ _ hnm]
  show (classDtStore s c).concepts ++
      [⟨pickConceptId (classDtStore s c) c.id, c.retired, c.datatype,
        c.concept_class, c.external_id, c.extras.is_set.getD false⟩] = _
  rw [classDtStore_concepts]
  have hloc : sync_concept_localId s c = pickConceptId (classDtStore s c) c.id := by
    show (let r := resolveNames (classDtStore s c) c.names c.id
      if r.at_lst_one then r.con_id
      else pickConceptId (classDtStore s c) r.con_id) = _
    rw [resolveNames_fresh _ _ _ hnm]
    rfl
  rw [hloc]

/-! ## C5 — the Mapping Classifier -/

/-- C5 counterexample: the classifier is two independent key-presence
filters.  `exBothRec` carries both a target-concept and a target-source
reference and is classified into *both* lists (processed as both internal
and external); `exNeitherRec` carries neither and lands in *neither* list —
it is silently dropped, and no `MalformedRecordError` exists anywhere in
the code.  This refutes the claim that every record is assigned exactly one
class and that a record matching neither shape is rejected. -/
theorem C5_counterexample :
    generate_internal_mapping [exBothRec, exNeitherRec] = [exBothRec] ∧
    generate_external_mapping [exBothRec, exNeitherRec] = [exBothRec] := by
  decide

/-- C5 (amended): `generate_internal_mapping` keeps exactly the records
carrying a target-concept reference and `generate_external_mapping` keeps
exactly the records carrying a target-source reference; the two
classifications are independent (a record carrying both shapes is processed
as both, a record carrying neither is silently dropped), the target code
plays no role, and no record is ever rejected with an error. -/
theorem C5_classifier (ms : List MappingRecord) (r : MappingRecord) :
    (r ∈ generate_internal_mapping ms ↔ r ∈ ms ∧ r.to_concept_url.isSome = true) ∧
    (r ∈ generate_external_mapping ms ↔ r ∈ ms ∧ r.to_source_url.isSome = true) := by
  constructor <;>
    simp [generate_internal_mapping, generate_external_mapping, List.mem_filter]

/-- Witness for C5 (amended), instantiated at the two-record batch of the
counterexample. -/
theorem C5_classifier_w :
    (exBothRec ∈ generate_internal_mapping [exBothRec, exNeitherRec] ↔
      exBothRec ∈ [exBothRec, exNeitherRec] ∧
        exBothRec.to_concept_url.isSome = true) ∧
    (exBothRec ∈ generate_external_mapping [exBothRec, exNeitherRec] ↔
      exBothRec ∈ [exBothRec, exNeitherRec] ∧
        exBothRec.to_source_url.isSome = true) :=
  C5_classifier [exBothRec, exNeitherRec] exBothRec

/-! ## C7 — id allocation for a newly created concept -/

/-- C7 counterexample: importing a record with foreign id 7 (whose name
tuples match nothing) into a store already holding local concept id 10
creates the new Concept row with local id 7 — the record's own foreign id,
*not* an id strictly greater than every existing concept id (10 > 7). -/
theorem C7_counterexample :
    (sync_concept exStoreC exConRec).toOption.map (fun p => p.1) =
      some (some 7) ∧
    (sync_concept exStoreC exConRec).toOption.map
      (fun p => p.2.concepts.map (fun r => r.concept_id)) = some [10, 7] ∧
    7 < 10 := by
  decide

/-- C7 (amended): for a concept record none of whose name tuples matches an
existing ConceptName row, `sync_concept` creates the new Concept row with
local id equal to the record's *foreign id* when no concept with that id
exists, and only on a collision allocates the maximum existing concept id
plus one; the returned Correspondence entry maps the record's foreign id to
that local id, and the created row is present in the store. -/
theorem C7_new_concept_id (s : Store) (c : ConceptRecord) (lid : Nat)
    (s1 : Store)
    (hfresh : ∀ n ∈ c.names, nameMatches s n = [])
    (h : sync_concept s c = .ok (some lid, s1)) :
    lid = (if s.concepts.any (fun r => r.concept_id == c.id) then
        maxConceptId s + 1 else c.id) ∧
    lid ∈ s1.concepts.map (fun r => r.concept_id) := by
  obtain ⟨hlid, hcs⟩ := sync_concept_ok_parts s c lid s1 h
  constructor
  · rw [hlid, sync_concept_localId_fresh s c hfresh]
  · rw [hcs, sync_concept_preNumeric_concepts_fresh s c hfresh, ← hlid]
    simp

/-- Witness for C7 (amended), at the concrete input of the counterexample:
the allocator keeps the record's foreign id 7 and the row lands in the
store. -/
theorem C7_new_concept_id_w :
    7 = (if exStoreC.concepts.any (fun r => r.concept_id == exConRec.id) then
        maxConceptId exStoreC + 1 else exConRec.id) ∧
    7 ∈ exConRecResult.2.concepts.map (fun r => r.concept_id) :=
  C7_new_concept_id exStoreC exConRec 7 exConRecResult.2 (by decide) (by decide)

/-! ## C9 — numeric extras access -/

/-- `numericRows` only reads the numeric table. -/
theorem numericRows_congr (s t : Store)
    (h : s.concept_numerics = t.concept_numerics) (cid : Nat) :
    numericRows s cid = numericRows t cid := by
  unfold numericRows; rw [h]

/-- C9: for a numeric-datatype record that reaches ConceptNumeric creation
(no existing numeric row for the resolved concept), `sync_concept`
unconditionally reads the `units` and `precise` extras keys: when `units`
is absent it raises an uncaught KeyError, when `units` is present but
`precise` is absent it raises an uncaught KeyError for `precise`, and when
both are present it creates the row copying the six optional bound fields
verbatim (each `none`, i.e. absent key, becomes a NULL bound). -/
theorem C9_numeric_extras (s : Store) (c : ConceptRecord)
    (hid : c.id ≠ 0) (hdt : c.datatype = "Numeric")
    (hnone : numericRows (sync_concept_preNumeric s c)
      (sync_concept_localId s c) = []) :
    (c.extras.units = none → sync_concept s c = .error "KeyError: units") ∧
    (c.extras.units.isSome = true → c.extras.precise = none →
      sync_concept s c = .error "KeyError: precise") ∧
    (∀ u p, c.extras.units = some u → c.extras.precise = some p →
      sync_concept s c = .ok (some (sync_concept_localId s c),
        { sync_concept_preNumeric s c with concept_numerics :=
            (sync_concept_preNumeric s c).concept_numerics ++
            [⟨sync_concept_localId s c, c.extras.hi_absolute,
              c.extras.hi_critical, c.extras.hi_normal, c.extras.low_critical,
              c.extras.low_absolute, c.extras.low_normal, u, p⟩] })) := by
  have h0 : ¬ (c.id == 0) = true := by simpa using hid
  have h1 : (c.datatype == "Numeric") = true := by simpa using hdt
  have h2 : (numericRows (sync_concept_preNumeric s c)
      (sync_concept_localId s c)).isEmpty = true := by rw [hnone]; rfl
  refine ⟨?_, ?_, ?_⟩
  · intro hu
    rw [sync_concept, if_neg h0, if_pos h1, if_pos h2, hu]
  · intro hs hp
    obtain ⟨u, hu⟩ := Option.isSome_iff_exists.mp hs
    rw [sync_concept, if_neg h0, if_pos h1, if_pos h2, hu, hp]
  · intro u p hu hp
    rw [sync_concept, if_neg h0, if_pos h1, if_pos h2, hu, hp]

/-- Witness for C9: the numeric record lacking the `units` key raises the
KeyError on a concrete import into the empty store. -/
theorem C9_numeric_extras_w :
    sync_concept exEmptyStore exNumRecNoUnits = .error "KeyError: units" :=
  (C9_numeric_extras exEmptyStore exNumRecNoUnits (by decide) (by decide)
    (by decide)).1 (by decide)

/-! ## C8 — numeric singularity -/

/-- Appending one row whose key has no occurrence keeps every per-key
count at most one. -/
theorem filter_append_singleton_le (l : List ConceptNumericRow)
    (row : ConceptNumericRow) (cid : Nat)
    (h0 : l.filter (fun r => r.concept_id == row.concept_id) = [])
    (hle : (l.filter (fun r => r.concept_id == cid)).length ≤ 1) :
    ((l ++ [row]).filter (fun r => r.concept_id == cid)).length ≤ 1 := by
  rw [List.filter_append]
  by_cases hc : (row.concept_id == cid) = true
  · have hcid : cid = row.concept_id := (eq_of_beq hc).symm
    subst hcid
    rw [h0]
    simp
  · rw [List.length_append]
    have hnil : List.filter (fun r => r.concept_id == cid) [row] = [] := by
      simp only [List.filter, hc]
    rw [hnil]
    simpa using hle

/-- C8: one `sync_concept` run preserves the invariant that every concept
has at most one ConceptNumeric row — the numeric block only inserts when
the resolved concept has no row, so re-importing a numeric record any
number of times leaves at most one row per concept. -/
theorem C8_numeric_singleton (s : Store) (c : ConceptRecord)
    (res : Option Nat) (s1 : Store)
    (h : sync_concept s c = .ok (res, s1))
    (hinv : ∀ cid, (numericRows s cid).length ≤ 1) :
    ∀ cid, (numericRows s1 cid).length ≤ 1 := by
  have hpre : ∀ cid, numericRows (sync_concept_preNumeric s c) cid =
      numericRows s cid :=
    numericRows_congr _ _ (sync_concept_preNumeric_numerics s c)
  rw [sync_concept] at h
  split at h
  · simp only [Except.ok.injEq, Prod.mk.injEq] at h
    rw [← h.2]; exact hinv
  · split at h
    · split at h
      · rename_i hemp
        have hemp2 : numericRows (sync_concept_preNumeric s c)
            (sync_concept_localId s c) = [] := by
          cases hnr : numericRows (sync_concept_preNumeric s c)
              (sync_concept_localId s c) with
          | nil => rfl
          | cons a l => rw [hnr] at hemp; simp [List.isEmpty] at hemp
        split at h
        · simp at h
        · split at h
          · simp at h
          · simp only [Except.ok.injEq, Prod.mk.injEq] at h
            rw [← h.2]
            intro cid
            unfold numericRows
            show (((sync_concept_preNumeric s c).concept_numerics ++
              [_]).filter
                (fun (r : ConceptNumericRow) => r.concept_id == cid)).length ≤ 1
            apply filter_append_singleton_le
            · exact hemp2
            · show (numericRows (sync_concept_preNumeric s c) cid).length ≤ 1
              rw [hpre cid]; exact hinv cid
      · simp only [Except.ok.injEq, Prod.mk.injEq] at h
        rw [← h.2]
        intro cid; rw [hpre cid]; exact hinv cid
    · simp only [Except.ok.injEq, Prod.mk.injEq] at h
      rw [← h.2]
      intro cid; rw [hpre cid]; exact hinv cid

/-- Witness for C8: after a concrete numeric import into the empty store,
the imported concept (local id 101) has at most one numeric row. -/
theorem C8_numeric_singleton_w :
    (numericRows exNumRecResult.2 101).length ≤ 1 :=
  C8_numeric_singleton exEmptyStore exNumRec (some 101) exNumRecResult.2
    (by decide) (fun cid => by simp [numericRows, exEmptyStore]) 101

/-! ## C10 — external edge ids come from the record -/

/-- C10: for an external mapping record that reaches edge creation (its
(term, concept, map type) triple is absent), the new ConceptReferenceMap
row's id is taken from the record's `concept_map_id` field — not allocated
from the store — and a record lacking the field raises an uncaught KeyError
at edge-creation time (after the lookups, before any edge write). -/
theorem C10_external_map_id (env : Env) (table : CorrespondenceTable)
    (s : Store) (i : MappingRecord) (tsu : List String) (code : String)
    (fid : Nat) (ss osrc : String) (lid : Nat) (t : ConceptReferenceTermRow)
    (cr : ConceptRow) (mt : String)
    (h1 : i.to_source_url = some tsu) (h2 : i.to_concept_code = some code)
    (h3 : urlIdSeg i.from_concept_url = some fid)
    (h4 : tsu.reverse.get? 1 = some ss)
    (h5 : env.omrsSourceIdFromOclId ss = some osrc)
    (h6 : table.lookup fid = some lid)
    (h7 : termMatches s osrc code = [t])
    (h8 : (s.concepts.filter (fun r => r.concept_id == lid)).head? = some cr)
    (h9 : s.map_types.find? (fun n => n == i.map_type) = some mt)
    (h10 : (s.reference_maps.filter (fun m =>
        m.term_id == t.concept_reference_term_id &&
        m.concept == cr.concept_id && m.map_type == mt)).isEmpty = true) :
    (i.concept_map_id = none →
      sync_external_mapping_one env table s i =
        .error ("KeyError: concept_map_id", s)) ∧
    (∀ cmid, i.concept_map_id = some cmid →
      sync_external_mapping_one env table s i = .ok
        { s with reference_maps := s.reference_maps ++
            [⟨cmid, cr.concept_id, t.concept_reference_term_id, mt,
              i.creator⟩] }) := by
  constructor
  · intro hcm
    simp only [sync_external_mapping_one, h1, h2, h3, h4, h5, h6, h7, h8, h9,
      h10, hcm, if_true]
  · intro cmid hcm
    simp only [sync_external_mapping_one, h1, h2, h3, h4, h5, h6, h7, h8, h9,
      h10, hcm, if_true]

/-- Witness for C10: the concrete external record with `concept_map_id = 77`
creates the edge row with id 77 taken from the record. -/
theorem C10_external_map_id_w :
    sync_external_mapping_one exEnv exTable exStoreT exExternalRec = .ok
      { exStoreT with reference_maps := exStoreT.reference_maps ++
          [⟨77, 5, 4, "SAME-AS", 1⟩] } :=
  (C10_external_map_id exEnv exTable exStoreT exExternalRec
    ["", "orgs", "I", "sources", "ICD", ""] "A01" 7 "ICD" "ICD-omrs" 5
    ⟨4, "ICD-omrs", "A01", false, 1⟩ ⟨5, false, "Text", "Test", "u5", false⟩
    "SAME-AS" (by decide) (by decide) (by decide) (by decide) (by decide)
    (by decide) (by decide) (by decide) (by decide) (by decide)).2 77 (by decide)

/-! ## C1 — missing correspondence handling -/

/-- When an endpoint lookup fails, the shared resolution prefix raises the
KeyError with the store untouched. -/
theorem resolveEndpoints_miss (table : CorrespondenceTable) (s : Store)
    (i : MappingRecord) (tu : List String) (fid tid : Nat)
    (htu : i.to_concept_url = some tu)
    (hf : urlIdSeg i.from_concept_url = some fid)
    (ht : urlIdSeg tu = some tid)
    (hmiss : table.lookup fid = none ∨ table.lookup tid = none) :
    resolveEndpoints table s i =
        .error ("KeyError: concepts_id_added from", s) ∨
    resolveEndpoints table s i =
        .error ("KeyError: concepts_id_added to", s) := by
  rcases hmiss with h | h
  · left; simp only [resolveEndpoints, htu, hf, ht, h]
  · cases hlf : table.lookup fid with
    | none => left; simp only [resolveEndpoints, htu, hf, ht, hlf]
    | some a => right; simp only [resolveEndpoints, htu, hf, ht, hlf, h]

/-- A resolution error short-circuits every internal branch. -/
theorem sync_internal_mapping_one_resolveErr (env : Env)
    (table : CorrespondenceTable) (s : Store) (i : MappingRecord)
    (e : String × Store) (he : resolveEndpoints table s i = .error e) :
    sync_internal_mapping_one env table s i = .error e := by
  rw [sync_internal_mapping_one]
  split
  · rw [syncSetBranch, he]
  · split
    · rw [syncQandABranch, he]
    · rw [syncGenericBranch, he]

/-- C1 counterexample: a mapping whose source endpoint (foreign id 9) is
absent from the Correspondence Table makes the *whole batch loop* abort
with an uncaught `KeyError` — there is no `MissingCorrespondenceError` and
no per-record containment: the well-formed second record, which alone
imports fine, is never processed.  (The error does carry the unchanged
store: the lookup precedes every write.) -/
theorem C1_counterexample :
    sync_internal_mapping exEnv exTable exStore [exBadSetRec, exGoodSetRec] =
      .error ("KeyError: concepts_id_added from", exStore) ∧
    mapResultOk (sync_internal_mapping exEnv exTable exStore [exGoodSetRec]) =
      true := by
  decide

/-- C1 (amended): for an internal mapping record, both endpoints are
resolved through the Correspondence Table, and if either foreign id has no
entry the record's processing raises an uncaught dictionary `KeyError`
(not a caught, reportable `MissingCorrespondenceError`); since the lookup
precedes every write of the record, the store at the moment of the error is
exactly the input store — no partial edge and no orphan reference term. -/
theorem C1_missing_correspondence (env : Env) (table : CorrespondenceTable)
    (s : Store) (i : MappingRecord) (tu : List String) (fid tid : Nat)
    (htu : i.to_concept_url = some tu)
    (hf : urlIdSeg i.from_concept_url = some fid)
    (ht : urlIdSeg tu = some tid)
    (hmiss : table.lookup fid = none ∨ table.lookup tid = none) :
    sync_internal_mapping_one env table s i =
        .error ("KeyError: concepts_id_added from", s) ∨
    sync_internal_mapping_one env table s i =
        .error ("KeyError: concepts_id_added to", s) := by
  rcases resolveEndpoints_miss table s i tu fid tid htu hf ht hmiss with h | h
  · exact Or.inl (sync_internal_mapping_one_resolveErr env table s i _ h)
  · exact Or.inr (sync_internal_mapping_one_resolveErr env table s i _ h)

/-- Witness for C1 (amended) at a concrete record with an unresolvable
source endpoint. -/
theorem C1_missing_correspondence_w :
    sync_internal_mapping_one exEnv exTable exStore exBadSetRec =
        .error ("KeyError: concepts_id_added from", exStore) ∨
    sync_internal_mapping_one exEnv exTable exStore exBadSetRec =
        .error ("KeyError: concepts_id_added to", exStore) :=
  C1_missing_correspondence exEnv exTable exStore exBadSetRec
    (conceptUrl "8") 9 8 (by decide) (by decide) (by decide)
    (Or.inl (by decide))

/-! ## C2 — self-mappings -/

/-- C2 counterexample: a set-membership mapping whose endpoints both
resolve to local id 5 is *not* skipped: it creates a SetMembership edge
with owner = member = 5 (one such edge appears where there was none). -/
theorem C2_counterexample :
    resolveEndpointIds exTable exSelfRec = some (5, 5) ∧
    (setEdges exStore 5 5).length = 0 ∧
    (sync_internal_mapping_one exEnv exTable exStore exSelfRec).toOption.map
      (fun s => (setEdges s 5 5).length) = some 1 := by
  decide

/-- C2 (amended): the Internal Mapping Resolver applies no self-mapping
check: an internal mapping whose source and target endpoints resolve to the
same local id is dispatched like any other record and materializes an edge
when one is absent (shown here for the set-membership type, which creates
the `(owner, member) = (lid, lid)` row); no separate self-mapping counter is
ever incremented — the command's summary counter for ignored self-mappings
is never written. -/
theorem C2_self_mapping (env : Env) (table : CorrespondenceTable) (s : Store)
    (i : MappingRecord) (tu : List String) (fid tid lid mx : Nat)
    (cr : ConceptRow)
    (hmt : i.map_type = env.MAP_TYPE_CONCEPT_SET)
    (htu : i.to_concept_url = some tu)
    (hf : urlIdSeg i.from_concept_url = some fid)
    (ht : urlIdSeg tu = some tid)
    (hlf : table.lookup fid = some lid)
    (hlt : table.lookup tid = some lid)
    (hc : getConcept s lid = some cr)
    (hnew : setEdges s lid lid = [])
    (hmx : maxSetId s = some mx) :
    sync_internal_mapping_one env table s i =
      .ok { s with concept_sets := s.concept_sets ++
          [⟨mx + 1, lid, lid, i.creator⟩] } := by
  have hres : resolveEndpoints table s i = .ok (fid, tid, lid, lid) := by
    simp only [resolveEndpoints, htu, hf, ht, hlf, hlt]
  have hmtb : (i.map_type == env.MAP_TYPE_CONCEPT_SET) = true := by
    simpa using hmt
  rw [sync_internal_mapping_one, if_pos hmtb]
  simp only [syncSetBranch, hres, hc, hnew, hmx, List.isEmpty_nil, if_true]

/-- Witness for C2 (amended): the concrete self-mapping of the
counterexample produces exactly the owner-equals-member edge. -/
theorem C2_self_mapping_w :
    sync_internal_mapping_one exEnv exTable exStore exSelfRec =
      .ok { exStore with concept_sets := exStore.concept_sets ++
          [⟨2, 5, 5, 1⟩] } :=
  C2_self_mapping exEnv exTable exStore exSelfRec (conceptUrl "7") 7 7 5 1
    ⟨5, false, "Text", "Test", "u5", false⟩ (by decide) (by decide)
    (by decide) (by decide) (by decide) (by decide) (by decide) (by decide)
    (by decide)

/-! ## C6 — per-record failure containment -/

/-- C6 counterexample: in a two-record batch whose first record has an
unresolvable endpoint, the loop aborts with the uncaught error and the
second record — which alone imports fine — is never processed.  Nothing is
caught, attributed a kind, or counted. -/
theorem C6_counterexample :
    sync_internal_mapping exEnv exTable exStore [exBadQaRec, exGoodQaRec] =
      .error ("KeyError: concepts_id_added from", exStore) ∧
    mapResultOk (sync_internal_mapping exEnv exTable exStore [exGoodQaRec]) =
      true := by
  decide

/-- C6 (amended): a per-record failure is *not* caught: whenever the
record `r` fails after a successfully processed prefix, the whole batch
returns that record's uncaught error and the remaining records are never
processed. -/
theorem C6_abort_propagation (env : Env) (table : CorrespondenceTable)
    (s s1 : Store) (l rest : List MappingRecord) (r : MappingRecord)
    (e : String × Store)
    (hok : sync_internal_mapping env table s l = .ok s1)
    (herr : sync_internal_mapping_one env table s1 r = .error e) :
    sync_internal_mapping env table s (l ++ r :: rest) = .error e := by
  unfold sync_internal_mapping at hok ⊢
  rw [List.foldlM_append, hok]
  show (r :: rest).foldlM
    (fun st i => sync_internal_mapping_one env table st i) s1 = .error e
  rw [List.foldlM_cons, herr]
  rfl

/-- Witness for C6 (amended): the concrete aborting batch of the
counterexample, as an instance of the propagation theorem. -/
theorem C6_abort_propagation_w :
    sync_internal_mapping exEnv exTable exStore ([] ++ exBadQaRec :: [exGoodQaRec]) =
      .error ("KeyError: concepts_id_added from", exStore) :=
  C6_abort_propagation exEnv exTable exStore exStore [] [exGoodQaRec]
    exBadQaRec ("KeyError: concepts_id_added from", exStore) (by decide)
    (by decide)

/-! ## C3 — edge idempotence of the internal mapping sync -/

theorem getConcept_congr (s t : Store) (h : s.concepts = t.concepts)
    (cid : Nat) : getConcept s cid = getConcept t cid := by
  unfold getConcept; rw [h]

theorem setEdges_congr (s t : Store) (h : s.concept_sets = t.concept_sets)
    (a b : Nat) : setEdges s a b = setEdges t a b := by
  unfold setEdges; rw [h]

theorem answerEdges_congr (s t : Store)
    (h : s.concept_answers = t.concept_answers) (a b : Nat) :
    answerEdges s a b = answerEdges t a b := by
  unfold answerEdges; rw [h]

theorem termMatches_congr (s t : Store)
    (h : s.reference_terms = t.reference_terms) (src code : String) :
    termMatches s src code = termMatches t src code := by
  unfold termMatches; rw [h]

/-- The shared endpoint-resolution prefix reads only the table and the
record, so a success is independent of the store it is run against. -/
theorem resolveEndpoints_store_indep (table : CorrespondenceTable)
    (s t : Store) (i : MappingRecord) (q : Nat × Nat × Nat × Nat)
    (h : resolveEndpoints table s i = .ok q) :
    resolveEndpoints table t i = .ok q := by
  unfold resolveEndpoints at h ⊢
  repeat' split at h
  all_goals simp_all

/-- The seed of a left fold by `max` bounds nothing above the fold. -/
theorem init_le_foldl_max (l : List Nat) (init : Nat) :
    init ≤ l.foldl max init := by
  induction l generalizing init with
  | nil => exact Nat.le_refl _
  | cons a l ih =>
      rw [List.foldl_cons]
      exact Nat.le_trans (Nat.le_max_left init a) (ih (max init a))

/-- Every element of a list is at most its left fold by `max`. -/
theorem mem_le_foldl_max (l : List Nat) :
    ∀ init x, x ∈ l → x ≤ l.foldl max init := by
  induction l with
  | nil => intro _ _ hx; cases hx
  | cons a l ih =>
      intro init x hx
      rw [List.foldl_cons]
      rcases List.mem_cons.mp hx with rfl | hmem
      · exact Nat.le_trans (Nat.le_max_right init x)
          (init_le_foldl_max l (max init x))
      · exact ih (max init a) x hmem

/-- Every existing reference-term id is bounded by `maxTermId`. -/
theorem maxTermId_ge (s : Store) (mx : Nat) (h : maxTermId s = some mx) :
    ∀ t ∈ s.reference_terms, t.concept_reference_term_id ≤ mx := by
  intro t ht
  unfold maxTermId at h
  split at h
  · rename_i hnil; rw [hnil] at ht; cases ht
  · simp only [Option.some.injEq] at h
    rw [← h]
    exact mem_le_foldl_max _ 0 _
      (List.mem_map.mpr ⟨t, ht, rfl⟩)

/-- Updating the set table does not change concept lookups. -/
theorem getConcept_sets_update (s : Store) (cs : List ConceptSetRow)
    (cid : Nat) :
    getConcept { s with concept_sets := cs } cid = getConcept s cid := rfl

/-- Updating the answer table does not change concept lookups. -/
theorem getConcept_answers_update (s : Store) (cs : List ConceptAnswerRow)
    (cid : Nat) :
    getConcept { s with concept_answers := cs } cid = getConcept s cid := rfl

/-- Set-membership edges of a store with an updated set table. -/
theorem setEdges_sets_update (s : Store) (cs : List ConceptSetRow)
    (a b : Nat) :
    setEdges { s with concept_sets := cs } a b =
      cs.filter (fun r => r.concept_set_owner == a && r.concept == b) := rfl

/-- Answer edges of a store with an updated answer table. -/
theorem answerEdges_answers_update (s : Store) (cs : List ConceptAnswerRow)
    (a b : Nat) :
    answerEdges { s with concept_answers := cs } a b =
      cs.filter (fun r => r.question_concept == a && r.answer_concept == b) :=
  rfl

/-- Full specification of a successful set-membership branch run: the
second run is a no-op, only the set table changes (by at most one row), and
when the `(owner, member)` pair was absent exactly one such edge exists
afterwards. -/
theorem syncSetBranch_spec (table : CorrespondenceTable) (s : Store)
    (i : MappingRecord) (s1 : Store) (h : syncSetBranch table s i = .ok s1) :
    syncSetBranch table s1 i = .ok s1 ∧
    s1.concepts = s.concepts ∧
    s1.concept_answers = s.concept_answers ∧
    s1.reference_terms = s.reference_terms ∧
    s1.reference_maps = s.reference_maps ∧
    s1.concept_sets.length ≤ s.concept_sets.length + 1 ∧
    (∀ fid tid a b, resolveEndpoints table s i = .ok (fid, tid, a, b) →
      setEdges s a b = [] → (setEdges s1 a b).length = 1) := by
  unfold syncSetBranch at h
  cases hre : resolveEndpoints table s i with
  | error e => simp only [hre] at h; exact absurd h (by simp)
  | ok q =>
    obtain ⟨fid, tid, a, b⟩ := q
    simp only [hre] at h
    have hreAll : ∀ t, resolveEndpoints table t i = .ok (fid, tid, a, b) :=
      fun t => resolveEndpoints_store_indep table s t i _ hre
    cases hca : getConcept s a with
    | none => simp only [hca] at h; exact absurd h (by simp)
    | some cra =>
      simp only [hca] at h
      cases hcb : getConcept s b with
      | none => simp only [hcb] at h; exact absurd h (by simp)
      | some crb =>
        simp only [hcb] at h
        by_cases hemp : (setEdges s a b).isEmpty = true
        · rw [if_pos hemp] at h
          cases hmx : maxSetId s with
          | none => simp only [hmx] at h; exact absurd h (by simp)
          | some mx =>
            simp only [hmx, Except.ok.injEq] at h
            subst h
            have hempnil : setEdges s a b = [] := by
              cases hnil : setEdges s a b with
              | nil => rfl
              | cons x xs => rw [hnil] at hemp; simp [List.isEmpty] at hemp
            have hempnil2 : List.filter
                (fun (r : ConceptSetRow) =>
                  r.concept_set_owner == a && r.concept == b)
                s.concept_sets = [] := hempnil
            have hse : setEdges
                { s with concept_sets := s.concept_sets ++
                    [⟨mx + 1, b, a, i.creator⟩] } a b =
                [⟨mx + 1, b, a, i.creator⟩] := by
              rw [setEdges_sets_update, List.filter_append, hempnil2]
              simp
            refine ⟨?_, rfl, rfl, rfl, rfl, by simp, ?_⟩
            · unfold syncSetBranch
              simp only [hreAll, getConcept_sets_update, hca, hcb]
              rw [hse]
              rfl
            · intro fid2 tid2 a2 b2 hre2 _hempty2
              simp only [Except.ok.injEq, Prod.mk.injEq] at hre2
              obtain ⟨h1, h2, h3, h4⟩ := hre2
              subst h3; subst h4
              rw [hse]
              rfl
        · rw [if_neg hemp] at h
          simp only [Except.ok.injEq] at h
          subst h
          refine ⟨?_, rfl, rfl, rfl, rfl, Nat.le_succ _, ?_⟩
          · unfold syncSetBranch
            simp only [hreAll, hca, hcb]
            rw [if_neg hemp]
          · intro fid2 tid2 a2 b2 hre2 hempty2
            simp only [Except.ok.injEq, Prod.mk.injEq] at hre2
            obtain ⟨h1, h2, h3, h4⟩ := hre2
            subst h3; subst h4
            rw [hempty2] at hemp
            simp at hemp

/-- Full specification of a successful question/answer branch run,
mirroring `syncSetBranch_spec`. -/
theorem syncQandABranch_spec (table : CorrespondenceTable) (s : Store)
    (i : MappingRecord) (s1 : Store) (h : syncQandABranch table s i = .ok s1) :
    syncQandABranch table s1 i = .ok s1 ∧
    s1.concepts = s.concepts ∧
    s1.concept_sets = s.concept_sets ∧
    s1.reference_terms = s.reference_terms ∧
    s1.reference_maps = s.reference_maps ∧
    s1.concept_answers.length ≤ s.concept_answers.length + 1 ∧
    (∀ fid tid a b, resolveEndpoints table s i = .ok (fid, tid, a, b) →
      answerEdges s a b = [] → (answerEdges s1 a b).length = 1) := by
  unfold syncQandABranch at h
  cases hre : resolveEndpoints table s i with
  | error e => simp only [hre] at h; exact absurd h (by simp)
  | ok q =>
    obtain ⟨fid, tid, a, b⟩ := q
    simp only [hre] at h
    have hreAll : ∀ t, resolveEndpoints table t i = .ok (fid, tid, a, b) :=
      fun t => resolveEndpoints_store_indep table s t i _ hre
    cases hca : getConcept s a with
    | none => simp only [hca] at h; exact absurd h (by simp)
    | some cra =>
      simp only [hca] at h
      cases hcb : getConcept s b with
      | none => simp only [hcb] at h; exact absurd h (by simp)
      | some crb =>
        simp only [hcb] at h
        by_cases hemp : (answerEdges s a b).isEmpty = true
        · rw [if_pos hemp] at h
          cases hmx : maxAnswerId s with
          | none => simp only [hmx] at h; exact absurd h (by simp)
          | some mx =>
            simp only [hmx, Except.ok.injEq] at h
            subst h
            have hempnil : answerEdges s a b = [] := by
              cases hnil : answerEdges s a b with
              | nil => rfl
              | cons x xs => rw [hnil] at hemp; simp [List.isEmpty] at hemp
            have hempnil2 : List.filter
                (fun (r : ConceptAnswerRow) =>
                  r.question_concept == a && r.answer_concept == b)
                s.concept_answers = [] := hempnil
            have hse : answerEdges
                { s with concept_answers := s.concept_answers ++
                    [⟨mx + 1, a, b, i.creator⟩] } a b =
                [⟨mx + 1, a, b, i.creator⟩] := by
              rw [answerEdges_answers_update, List.filter_append, hempnil2]
              simp
            refine ⟨?_, rfl, rfl, rfl, rfl, by simp, ?_⟩
            · unfold syncQandABranch
              simp only [hreAll, getConcept_answers_update, hca, hcb]
              rw [hse]
              rfl
            · intro fid2 tid2 a2 b2 hre2 _hempty2
              simp only [Except.ok.injEq, Prod.mk.injEq] at hre2
              obtain ⟨h1, h2, h3, h4⟩ := hre2
              subst h3; subst h4
              rw [hse]
              rfl
        · rw [if_neg hemp] at h
          simp only [Except.ok.injEq] at h
          subst h
          refine ⟨?_, rfl, rfl, rfl, rfl, Nat.le_succ _, ?_⟩
          · unfold syncQandABranch
            simp only [hreAll, hca, hcb]
            rw [if_neg hemp]
          · intro fid2 tid2 a2 b2 hre2 hempty2
            simp only [Except.ok.injEq, Prod.mk.injEq] at hre2
            obtain ⟨h1, h2, h3, h4⟩ := hre2
            subst h3; subst h4
            rw [hempty2] at hemp
            simp at hemp

theorem getConcept_maps_update (s : Store) (ms : List ConceptReferenceMapRow)
    (cid : Nat) :
    getConcept { s with reference_maps := ms } cid = getConcept s cid := rfl

theorem refSources_maps_update (s : Store) (ms : List ConceptReferenceMapRow) :
    ({ s with reference_maps := ms } : Store).reference_sources =
      s.reference_sources := rfl

theorem mapTypes_maps_update (s : Store) (ms : List ConceptReferenceMapRow) :
    ({ s with reference_maps := ms } : Store).map_types = s.map_types := rfl

theorem getConcept_terms_update (s : Store)
    (ts : List ConceptReferenceTermRow) (cid : Nat) :
    getConcept { s with reference_terms := ts } cid = getConcept s cid := rfl

theorem refSources_terms_update (s : Store)
    (ts : List ConceptReferenceTermRow) :
    ({ s with reference_terms := ts } : Store).reference_sources =
      s.reference_sources := rfl

theorem getConcept_update2 (s : Store) (ts : List ConceptReferenceTermRow)
    (ms : List ConceptReferenceMapRow) (cid : Nat) :
    getConcept { s with reference_terms := ts, reference_maps := ms } cid =
      getConcept s cid := rfl

theorem refSources_update2 (s : Store) (ts : List ConceptReferenceTermRow)
    (ms : List ConceptReferenceMapRow) :
    ({ s with reference_terms := ts, reference_maps := ms } :
      Store).reference_sources = s.reference_sources := rfl

theorem mapTypes_update2 (s : Store) (ts : List ConceptReferenceTermRow)
    (ms : List ConceptReferenceMapRow) :
    ({ s with reference_terms := ts, reference_maps := ms } :
      Store).map_types = s.map_types := rfl

theorem mapTypes_terms_update (s : Store) (ts : List ConceptReferenceTermRow) :
    ({ s with reference_terms := ts } : Store).map_types = s.map_types := rfl

theorem refMaps_terms_update (s : Store) (ts : List ConceptReferenceTermRow) :
    ({ s with reference_terms := ts } : Store).reference_maps =
      s.reference_maps := rfl

theorem maxRefMapId_terms_update (s : Store)
    (ts : List ConceptReferenceTermRow) :
    maxRefMapId { s with reference_terms := ts } = maxRefMapId s := rfl

/-- A found reference term lies in the store and matches the key. -/
theorem termMatches_found (s : Store) (src code : String)
    (t : ConceptReferenceTermRow) (ts : List ConceptReferenceTermRow)
    (h : termMatches s src code = t :: ts) :
    t ∈ s.reference_terms ∧
      (t.source == src) = true ∧ (t.code == code) = true := by
  have hmem : t ∈ termMatches s src code := by rw [h]; exact List.mem_cons_self t ts
  unfold termMatches at hmem
  refine ⟨List.mem_of_mem_filter hmem, ?_, ?_⟩
  · exact (Bool.and_eq_true .. ▸ List.of_mem_filter hmem).1
  · exact (Bool.and_eq_true .. ▸ List.of_mem_filter hmem).2

/-- Full specification of a successful generic cross-reference branch run:
the second run is a no-op, the concept/set/answer tables are untouched, at
most one ReferenceMap row is added, and when no matching cross-reference
edge existed exactly one exists afterwards.  `hfk` is referential integrity
of the edge table (every edge's term id points at an existing term), which
rules out dangling edges accidentally matching the freshly allocated term
id. -/
theorem syncGenericBranch_spec (env : Env) (table : CorrespondenceTable)
    (s : Store) (i : MappingRecord) (s1 : Store)
    (hfk : ∀ m ∈ s.reference_maps, ∃ t ∈ s.reference_terms,
      t.concept_reference_term_id = m.term_id)
    (h : syncGenericBranch env table s i = .ok s1) :
    syncGenericBranch env table s1 i = .ok s1 ∧
    s1.concepts = s.concepts ∧
    s1.concept_sets = s.concept_sets ∧
    s1.concept_answers = s.concept_answers ∧
    s1.reference_maps.length ≤ s.reference_maps.length + 1 ∧
    (∀ fid tid a b, resolveEndpoints table s i = .ok (fid, tid, a, b) →
      ∀ ss osrc, urlSourceSeg i.from_concept_url = some ss →
        env.omrsSourceIdFromOclId ss = some osrc →
        refMapEdges s a i.map_type osrc (toString tid) = [] →
        (refMapEdges s1 a i.map_type osrc (toString tid)).length = 1) := by
  unfold syncGenericBranch at h
  cases hre : resolveEndpoints table s i with
  | error e => simp only [hre] at h; exact absurd h (by simp)
  | ok q =>
  obtain ⟨fid, tid, a, b⟩ := q
  simp only [hre] at h
  have hreAll : ∀ t, resolveEndpoints table t i = .ok (fid, tid, a, b) :=
    fun t => resolveEndpoints_store_indep table s t i _ hre
  cases hca : getConcept s a with
  | none => simp only [hca] at h; exact absurd h (by simp)
  | some cra =>
  simp only [hca] at h
  cases hss : urlSourceSeg i.from_concept_url with
  | none => simp only [hss] at h; exact absurd h (by simp)
  | some ss =>
  simp only [hss] at h
  cases hos : env.omrsSourceIdFromOclId ss with
  | none => simp only [hos] at h; exact absurd h (by simp)
  | some osrc =>
  simp only [hos] at h
  cases hsf : s.reference_sources.find? (fun n => n == osrc) with
  | none => simp only [hsf] at h; exact absurd h (by simp)
  | some src =>
  simp only [hsf] at h
  cases htm : termMatches s osrc (toString tid) with
  | cons t rest =>
    cases rest with
    | cons u rest2 => simp only [htm] at h; exact absurd h (by simp)
    | nil =>
      -- the reference term already exists
      simp only [htm] at h
      obtain ⟨htmem, htsrc, htcode⟩ := termMatches_found s osrc _ t [] htm
      cases hmtf : s.map_types.find? (fun n => n == i.map_type) with
      | none => simp only [hmtf] at h; exact absurd h (by simp)
      | some mt =>
      simp only [hmtf] at h
      have hfindb := List.find?_some hmtf
      have hmteq : mt = i.map_type := eq_of_beq hfindb
      split at h
      · -- the (term, concept, map type) triple is absent: edge created
        rename_i hempT
        cases hmxm : maxRefMapId s with
        | none => simp only [hmxm] at h; exact absurd h (by simp)
        | some mxm =>
        simp only [hmxm, Except.ok.injEq] at h
        subst h
        have hempnil : s.reference_maps.filter (fun m =>
            m.term_id == t.concept_reference_term_id && m.concept == a &&
              m.map_type == mt) = [] := by
          cases hnil : s.reference_maps.filter (fun m =>
              m.term_id == t.concept_reference_term_id && m.concept == a &&
                m.map_type == mt) with
          | nil => rfl
          | cons x xs =>
              rw [hnil] at hempT; simp [List.isEmpty] at hempT
        refine ⟨?_, rfl, rfl, rfl, by simp, ?_⟩
        · -- second run: the new edge row is found, nothing is created
          have e6 : termMatches
              { s with reference_maps := s.reference_maps ++
                  [⟨mxm + 1, a, t.concept_reference_term_id, mt, i.creator⟩] }
              osrc (toString tid) = [t] := htm
          have e8 : (({ s with reference_maps := s.reference_maps ++
                  [⟨mxm + 1, a, t.concept_reference_term_id, mt,
                    i.creator⟩] } : Store).reference_maps.filter
                (fun m => m.term_id == t.concept_reference_term_id &&
                  m.concept == a && m.map_type == mt)).isEmpty = false := by
            show ((s.reference_maps ++
                ([⟨mxm + 1, a, t.concept_reference_term_id, mt,
                  i.creator⟩] : List ConceptReferenceMapRow)).filter
              (fun (m : ConceptReferenceMapRow) =>
                m.term_id == t.concept_reference_term_id &&
                m.concept == a && m.map_type == mt)).isEmpty = false
            rw [List.filter_append, hempnil]
            simp
          unfold syncGenericBranch
          simp only [hreAll, getConcept_maps_update, hca, hss, hos,
            refSources_maps_update, hsf, e6, mapTypes_maps_update, hmtf, e8]
          rfl
        · -- exactly one matching cross-reference edge exists afterwards
          intro fid2 tid2 a2 b2 hre2 ss2 osrc2 hss2 hos2 hempE
          simp only [Except.ok.injEq, Prod.mk.injEq] at hre2
          obtain ⟨g1, g2, g3, g4⟩ := hre2
          subst g2; subst g3
          simp only [Option.some.injEq] at hss2
          subst hss2
          rw [hos] at hos2
          simp only [Option.some.injEq] at hos2
          subst hos2
          show ((s.reference_maps ++
              ([⟨mxm + 1, a, t.concept_reference_term_id, mt,
                i.creator⟩] : List ConceptReferenceMapRow)).filter
            (fun (m : ConceptReferenceMapRow) =>
              m.concept == a && m.map_type == i.map_type &&
              (s.reference_terms.any (fun tt =>
                tt.concept_reference_term_id == m.term_id &&
                  tt.source == osrc && tt.code == toString tid)))).length = 1
          rw [List.filter_append]
          have hold : s.reference_maps.filter
              (fun m => m.concept == a && m.map_type == i.map_type &&
                (s.reference_terms.any (fun tt =>
                  tt.concept_reference_term_id == m.term_id &&
                    tt.source == osrc && tt.code == toString tid))) = [] :=
            hempE
          rw [hold]
          have hrow : ((⟨mxm + 1, a, t.concept_reference_term_id, mt,
              i.creator⟩ : ConceptReferenceMapRow).concept == a &&
              (mt == i.map_type) &&
              (s.reference_terms.any (fun tt =>
                tt.concept_reference_term_id == t.concept_reference_term_id &&
                  tt.source == osrc && tt.code == toString tid))) = true := by
            have hany : s.reference_terms.any (fun tt =>
                tt.concept_reference_term_id == t.concept_reference_term_id &&
                  tt.source == osrc && tt.code == toString tid) = true := by
              apply List.any_eq_true.mpr
              exact ⟨t, htmem, by simp [htsrc, htcode]⟩
            simp [hmteq, hany]
          simp only [List.nil_append, List.filter, hrow]
          rfl
      · -- the triple already exists: nothing is created
        rename_i hempT
        simp only [Except.ok.injEq] at h
        subst h
        refine ⟨?_, rfl, rfl, rfl, Nat.le_succ _, ?_⟩
        · unfold syncGenericBranch
          simp only [hreAll, hca, hss, hos, hsf, htm, hmtf]
          split
          · rename_i hempT2; exact absurd hempT2 hempT
          · rfl
        · intro fid2 tid2 a2 b2 hre2 ss2 osrc2 hss2 hos2 hempE
          simp only [Except.ok.injEq, Prod.mk.injEq] at hre2
          obtain ⟨g1, g2, g3, g4⟩ := hre2
          subst g2; subst g3
          simp only [Option.some.injEq] at hss2
          subst hss2
          rw [hos] at hos2
          simp only [Option.some.injEq] at hos2
          subst hos2
          exfalso
          have hne : s.reference_maps.filter (fun m =>
              m.term_id == t.concept_reference_term_id && m.concept == a &&
                m.map_type == mt) ≠ [] := by
            intro hnil
            apply hempT
            show (s.reference_maps.filter (fun m =>
              m.term_id == t.concept_reference_term_id && m.concept == a &&
                m.map_type == mt)).isEmpty = true
            rw [hnil]
            rfl
          obtain ⟨M, hM⟩ := List.exists_mem_of_ne_nil _ hne
          have hMmem := List.mem_filter.mp hM
          obtain ⟨hM1, hM2⟩ := hMmem
          simp only [Bool.and_eq_true] at hM2
          have hMedge : M ∈ refMapEdges s a i.map_type osrc (toString tid) := by
            apply List.mem_filter.mpr
            refine ⟨hM1, ?_⟩
            have hany : s.reference_terms.any (fun tt =>
                tt.concept_reference_term_id == M.term_id &&
                  tt.source == osrc && tt.code == toString tid) = true := by
              apply List.any_eq_true.mpr
              refine ⟨t, htmem, ?_⟩
              have : (M.term_id == t.concept_reference_term_id) = true :=
                hM2.1.1
              have hMt : M.term_id = t.concept_reference_term_id :=
                eq_of_beq this
              simp [hMt, htsrc, htcode]
            have hMmt : M.map_type = i.map_type := by
              have : M.map_type = mt := eq_of_beq hM2.2
              rw [this, hmteq]
            simp [hM2.1.2, hMmt, hany]
          rw [hempE] at hMedge
          cases hMedge
  | nil =>
    -- the reference term is created first
    simp only [htm] at h
    cases hmxt : maxTermId s with
    | none => simp only [hmxt] at h; exact absurd h (by simp)
    | some mxt =>
    simp only [hmxt, mapTypes_terms_update, refMaps_terms_update,
      maxRefMapId_terms_update] at h
    cases hmtf : s.map_types.find? (fun n => n == i.map_type) with
    | none => simp only [hmtf] at h; exact absurd h (by simp)
    | some mt =>
    simp only [hmtf] at h
    have hfindb := List.find?_some hmtf
    have hmteq : mt = i.map_type := eq_of_beq hfindb
    have hfreshNe : ∀ m ∈ s.reference_maps, m.term_id ≠ mxt + 1 := by
      intro m hm
      obtain ⟨t', ht'mem, ht'id⟩ := hfk m hm
      have hle := maxTermId_ge s mxt hmxt t' ht'mem
      omega
    have hfresh : ∀ m ∈ s.reference_maps, (m.term_id == mxt + 1) = false :=
      fun m hm => beq_eq_false_iff_ne.mpr (hfreshNe m hm)
    split at h
    · rename_i hempT
      cases hmxm : maxRefMapId s with
      | none => simp only [hmxm] at h; exact absurd h (by simp)
      | some mxm =>
      simp only [hmxm, Except.ok.injEq] at h
      subst h
      refine ⟨?_, rfl, rfl, rfl, by simp, ?_⟩
      · -- second run: term and edge both found
        have e6 : termMatches
            { s with
              reference_terms := s.reference_terms ++
                [⟨mxt + 1, osrc, toString tid, i.retired, i.creator⟩],
              reference_maps := s.reference_maps ++
                [⟨mxm + 1, a, mxt + 1, mt, i.creator⟩] }
            osrc (toString tid) =
            [⟨mxt + 1, osrc, toString tid, i.retired, i.creator⟩] := by
          show ((s.reference_terms ++
              ([⟨mxt + 1, osrc, toString tid, i.retired, i.creator⟩] :
                List ConceptReferenceTermRow)).filter
            (fun (tt : ConceptReferenceTermRow) =>
              tt.source == osrc && tt.code == toString tid)) = _
          rw [List.filter_append]
          rw [show s.reference_terms.filter
            (fun (tt : ConceptReferenceTermRow) =>
              tt.source == osrc && tt.code == toString tid) = []
            from htm]
          simp
        have e8 : ((s.reference_maps ++
              ([⟨mxm + 1, a, mxt + 1, mt, i.creator⟩] :
                List ConceptReferenceMapRow)).filter
            (fun (m : ConceptReferenceMapRow) =>
              m.term_id == mxt + 1 && m.concept == a &&
              m.map_type == mt)).isEmpty = false := by
          rw [List.filter_append]
          have hrow : List.filter
              (fun (m : ConceptReferenceMapRow) => m.term_id == mxt + 1 &&
                m.concept == a && m.map_type == mt)
              ([⟨mxm + 1, a, mxt + 1, mt, i.creator⟩] :
                List ConceptReferenceMapRow) =
              ([⟨mxm + 1, a, mxt + 1, mt, i.creator⟩] :
                List ConceptReferenceMapRow) := by simp
          rw [hrow]
          cases s.reference_maps.filter
            (fun (m : ConceptReferenceMapRow) => m.term_id == mxt + 1 &&
              m.concept == a && m.map_type == mt) <;> rfl
        unfold syncGenericBranch
        simp only [hreAll, getConcept_update2, hca, hss, hos,
          refSources_update2, hsf, e6, mapTypes_update2, hmtf, e8]
        rfl
      · intro fid2 tid2 a2 b2 hre2 ss2 osrc2 hss2 hos2 hempE
        simp only [Except.ok.injEq, Prod.mk.injEq] at hre2
        obtain ⟨g1, g2, g3, g4⟩ := hre2
        subst g2; subst g3
        simp only [Option.some.injEq] at hss2
        subst hss2
        rw [hos] at hos2
        simp only [Option.some.injEq] at hos2
        subst hos2
        show ((s.reference_maps ++
            ([⟨mxm + 1, a, mxt + 1, mt, i.creator⟩] :
              List ConceptReferenceMapRow)).filter
          (fun (m : ConceptReferenceMapRow) =>
            m.concept == a && m.map_type == i.map_type &&
            ((s.reference_terms ++
              ([⟨mxt + 1, osrc, toString tid, i.retired, i.creator⟩] :
                List ConceptReferenceTermRow)).any
                (fun tt => tt.concept_reference_term_id == m.term_id &&
                  tt.source == osrc && tt.code == toString tid)))).length = 1
        rw [List.filter_append]
        have hold : s.reference_maps.filter
            (fun (m : ConceptReferenceMapRow) =>
              m.concept == a && m.map_type == i.map_type &&
              ((s.reference_terms ++
                ([⟨mxt + 1, osrc, toString tid, i.retired, i.creator⟩] :
                  List ConceptReferenceTermRow)).any
                  (fun tt => tt.concept_reference_term_id == m.term_id &&
                    tt.source == osrc && tt.code == toString tid))) = [] := by
          apply List.filter_eq_nil_iff.mpr
          intro m hm
          have hmold := List.filter_eq_nil_iff.mp hempE m hm
          have hne : (mxt + 1 == m.term_id) = false :=
            beq_eq_false_iff_ne.mpr (fun hh => hfreshNe m hm hh.symm)
          intro hcontra
          apply hmold
          revert hcontra
          simp only [List.any_append, List.any_cons, List.any_nil,
            Bool.or_false, Bool.and_eq_true, Bool.or_eq_true, hne]
          intro hcontra
          obtain ⟨⟨hc1, hc2⟩, hc3⟩ := hcontra
          refine ⟨⟨hc1, hc2⟩, ?_⟩
          rcases hc3 with hc3 | hc3
          · exact hc3
          · simp_all
        rw [hold]
        simp [hmteq]
    · -- dangling edges already reference the fresh term id: impossible
      -- for the count part, but the run is still idempotent
      rename_i hempT
      simp only [Except.ok.injEq] at h
      subst h
      refine ⟨?_, rfl, rfl, rfl, Nat.le_succ _, ?_⟩
      · have e6 : termMatches
            { s with reference_terms := s.reference_terms ++
                [⟨mxt + 1, osrc, toString tid, i.retired, i.creator⟩] }
            osrc (toString tid) =
            [⟨mxt + 1, osrc, toString tid, i.retired, i.creator⟩] := by
          show ((s.reference_terms ++
              ([⟨mxt + 1, osrc, toString tid, i.retired, i.creator⟩] :
                List ConceptReferenceTermRow)).filter
            (fun (tt : ConceptReferenceTermRow) =>
              tt.source == osrc && tt.code == toString tid)) = _
          rw [List.filter_append]
          rw [show s.reference_terms.filter
            (fun (tt : ConceptReferenceTermRow) =>
              tt.source == osrc && tt.code == toString tid) = []
            from htm]
          simp
        have e8 : (s.reference_maps.filter
            (fun (m : ConceptReferenceMapRow) =>
              m.term_id == mxt + 1 && m.concept == a &&
              m.map_type == mt)).isEmpty = false :=
          eq_false_of_ne_true hempT
        unfold syncGenericBranch
        simp only [hreAll, getConcept_update2, hca, hss, hos,
          refSources_update2, hsf, e6, mapTypes_update2, hmtf, e8]
        rfl
      · intro fid2 tid2 a2 b2 hre2 ss2 osrc2 hss2 hos2 hempE
        exfalso
        have hne : s.reference_maps.filter (fun m =>
            m.term_id == mxt + 1 && m.concept == a &&
              m.map_type == mt) ≠ [] := by
          intro hnil
          apply hempT
          show (s.reference_maps.filter (fun m =>
            m.term_id == mxt + 1 && m.concept == a &&
              m.map_type == mt)).isEmpty = true
          rw [hnil]
          rfl
        obtain ⟨M, hM⟩ := List.exists_mem_of_ne_nil _ hne
        obtain ⟨hM1, hM2⟩ := List.mem_filter.mp hM
        simp only [Bool.and_eq_true] at hM2
        have := hfresh M hM1
        rw [hM2.1.1] at this
        cases this

/-- C3: processing the same internal mapping record twice against the same
Correspondence Table produces exactly one edge row of the dispatched kind —
one SetMembership for the set-membership type, one AnswerLink for the
question/answer type, one ReferenceMap otherwise — and the second run
creates no edge at all (it returns the store unchanged).  `henv` states the
two dispatch constants are distinct (they are, `CONCEPT-SET` vs `Q-AND-A`);
`hfk` is referential integrity of the reference-map table. -/
theorem C3_edge_idempotent (env : Env) (table : CorrespondenceTable)
    (s s1 : Store) (i : MappingRecord)
    (henv : env.MAP_TYPE_CONCEPT_SET ≠ env.MAP_TYPE_Q_AND_A)
    (hfk : ∀ m ∈ s.reference_maps, ∃ t ∈ s.reference_terms,
      t.concept_reference_term_id = m.term_id)
    (h : sync_internal_mapping_one env table s i = .ok s1) :
    sync_internal_mapping_one env table s1 i = .ok s1 ∧
    s1.concept_sets.length ≤ s.concept_sets.length + 1 ∧
    s1.concept_answers.length ≤ s.concept_answers.length + 1 ∧
    s1.reference_maps.length ≤ s.reference_maps.length + 1 ∧
    (∀ fid tid a b, resolveEndpoints table s i = .ok (fid, tid, a, b) →
      (i.map_type = env.MAP_TYPE_CONCEPT_SET → setEdges s a b = [] →
        (setEdges s1 a b).length = 1) ∧
      (i.map_type = env.MAP_TYPE_Q_AND_A → answerEdges s a b = [] →
        (answerEdges s1 a b).length = 1) ∧
      (i.map_type ≠ env.MAP_TYPE_CONCEPT_SET →
        i.map_type ≠ env.MAP_TYPE_Q_AND_A →
        ∀ ss osrc, urlSourceSeg i.from_concept_url = some ss →
          env.omrsSourceIdFromOclId ss = some osrc →
          refMapEdges s a i.map_type osrc (toString tid) = [] →
          (refMapEdges s1 a i.map_type osrc (toString tid)).length = 1)) := by
  unfold sync_internal_mapping_one at h ⊢
  by_cases hset : (i.map_type == env.MAP_TYPE_CONCEPT_SET) = true
  · rw [if_pos hset] at h ⊢
    obtain ⟨hrun, hconc, hans, hterms, hmaps, hlen, hcount⟩ :=
      syncSetBranch_spec table s i s1 h
    have hmt : i.map_type = env.MAP_TYPE_CONCEPT_SET := eq_of_beq hset
    refine ⟨hrun, hlen, by rw [hans]; exact Nat.le_succ _, by rw [hmaps]; exact Nat.le_succ _, ?_⟩
    intro fid tid a b hre
    refine ⟨fun _ hempty => hcount fid tid a b hre hempty, ?_, ?_⟩
    · intro hqa1 _
      exact absurd (hmt.symm.trans hqa1) henv
    · intro hnset _
      exact absurd hmt hnset
  · rw [if_neg hset] at h ⊢
    by_cases hqa : (i.map_type == env.MAP_TYPE_Q_AND_A) = true
    · rw [if_pos hqa] at h ⊢
      obtain ⟨hrun, hconc, hsets, hterms, hmaps, hlen, hcount⟩ :=
        syncQandABranch_spec table s i s1 h
      have hmt : i.map_type = env.MAP_TYPE_Q_AND_A := eq_of_beq hqa
      refine ⟨hrun, by rw [hsets]; exact Nat.le_succ _, hlen, by rw [hmaps]; exact Nat.le_succ _, ?_⟩
      intro fid tid a b hre
      refine ⟨?_, fun _ hempty => hcount fid tid a b hre hempty, ?_⟩
      · intro hst _
        exact absurd (hst.symm.trans hmt) henv
      · intro _ hnqa
        exact absurd hmt hnqa
    · rw [if_neg hqa] at h ⊢
      obtain ⟨hrun, hconc, hsets, hans, hlen, hcount⟩ :=
        syncGenericBranch_spec env table s i s1 hfk h
      have hnset : i.map_type ≠ env.MAP_TYPE_CONCEPT_SET :=
        fun he => hset (by rw [he]; exact beq_self_eq_true _)
      have hnqa2 : i.map_type ≠ env.MAP_TYPE_Q_AND_A :=
        fun he => hqa (by rw [he]; exact beq_self_eq_true _)
      refine ⟨hrun, by rw [hsets]; exact Nat.le_succ _, by rw [hans]; exact Nat.le_succ _, hlen, ?_⟩
      intro fid tid a b hre
      refine ⟨fun hst _ => absurd hst hnset,
        fun hq _ => absurd hq hnqa2, ?_⟩
      intro _ _ ss osrc hss hos hempE
      exact hcount fid tid a b hre ss osrc hss hos hempE

/-- Witness for C3: the concrete set-membership record imported into
`exStore` — the second run returns the produced store unchanged and exactly
one (5, 6) set edge exists. -/
theorem C3_edge_idempotent_w :
    sync_internal_mapping_one exEnv exTable exSetOut exGoodSetRec =
      .ok exSetOut ∧
    (setEdges exSetOut 5 6).length = 1 :=
  ⟨(C3_edge_idempotent exEnv exTable exStore exSetOut exGoodSetRec
      (by decide) (by decide) (by decide)).1,
   ((C3_edge_idempotent exEnv exTable exStore exSetOut exGoodSetRec
      (by decide) (by decide) (by decide)).2.2.2.2 7 8 5 6
        (by decide)).1 (by decide) (by decide)⟩


/-! ## C4 — idempotence of the concept import -/

theorem isEmpty_append_singleton {α : Type} (l : List α) (x : α) :
    (l ++ [x]).isEmpty = false := by cases l <;> rfl

theorem syncConceptClass_concept_datatypes (s : Store) (nm : String)
    (ret : Bool) :
    (syncConceptClass s nm ret).concept_datatypes = s.concept_datatypes := by
  unfold syncConceptClass; split <;> rfl

theorem syncConceptDatatype_concept_classes (s : Store) (nm : String) :
    (syncConceptDatatype s nm).concept_classes = s.concept_classes := by
  unfold syncConceptDatatype; split <;> rfl

theorem insertName_concept_classes (cid : Nat) (s : Store) (n : NameRecord) :
    (insertName cid s n).concept_classes = s.concept_classes := by
  unfold insertName; split <;> rfl

theorem insertName_concept_datatypes (cid : Nat) (s : Store) (n : NameRecord) :
    (insertName cid s n).concept_datatypes = s.concept_datatypes := by
  unfold insertName; split <;> rfl

theorem insertNames_concept_classes (cid : Nat) (s : Store)
    (ns : List NameRecord) :
    (insertNames cid s ns).concept_classes = s.concept_classes := by
  induction ns generalizing s with
  | nil => rfl
  | cons n ns ih =>
      show (insertNames cid (insertName cid s n) ns).concept_classes =
        s.concept_classes
      rw [ih, insertName_concept_classes]

theorem insertNames_concept_datatypes (cid : Nat) (s : Store)
    (ns : List NameRecord) :
    (insertNames cid s ns).concept_datatypes = s.concept_datatypes := by
  induction ns generalizing s with
  | nil => rfl
  | cons n ns ih =>
      show (insertNames cid (insertName cid s n) ns).concept_datatypes =
        s.concept_datatypes
      rw [ih, insertName_concept_datatypes]

theorem insertDescription_concept_classes (cid : Nat) (s : Store)
    (d : DescriptionRecord) :
    (insertDescription cid s d).concept_classes = s.concept_classes := by
  unfold insertDescription; split <;> rfl

theorem insertDescription_concept_datatypes (cid : Nat) (s : Store)
    (d : DescriptionRecord) :
    (insertDescription cid s d).concept_datatypes = s.concept_datatypes := by
  unfold insertDescription; split <;> rfl

theorem insertDescriptions_concept_classes (cid : Nat) (s : Store)
    (ds : List DescriptionRecord) :
    (insertDescriptions cid s ds).concept_classes = s.concept_classes := by
  induction ds generalizing s with
  | nil => rfl
  | cons d ds ih =>
      show (insertDescriptions cid (insertDescription cid s d) ds).concept_classes
        = s.concept_classes
      rw [ih, insertDescription_concept_classes]

theorem insertDescriptions_concept_datatypes (cid : Nat) (s : Store)
    (ds : List DescriptionRecord) :
    (insertDescriptions cid s ds).concept_datatypes = s.concept_datatypes := by
  induction ds generalizing s with
  | nil => rfl
  | cons d ds ih =>
      show (insertDescriptions cid (insertDescription cid s d) ds).concept_datatypes
        = s.concept_datatypes
      rw [ih, insertDescription_concept_datatypes]

theorem sync_concept_s3_concept_classes (s : Store) (c : ConceptRecord) :
    (sync_concept_s3 s c).concept_classes =
      (classDtStore s c).concept_classes := by
  unfold sync_concept_s3; split <;> rfl

theorem sync_concept_s3_concept_datatypes (s : Store) (c : ConceptRecord) :
    (sync_concept_s3 s c).concept_datatypes =
      (classDtStore s c).concept_datatypes := by
  unfold sync_concept_s3; split <;> rfl

theorem sync_concept_s3_concept_names (s : Store) (c : ConceptRecord) :
    (sync_concept_s3 s c).concept_names =
      (classDtStore s c).concept_names := by
  unfold sync_concept_s3; split <;> rfl

/-- The pre-numeric stage leaves the class table exactly as the
class/datatype sync left it. -/
theorem sync_concept_preNumeric_classes (s : Store) (c : ConceptRecord) :
    (sync_concept_preNumeric s c).concept_classes =
      (classDtStore s c).concept_classes := by
  unfold sync_concept_preNumeric
  rw [insertDescriptions_concept_classes, insertNames_concept_classes,
    sync_concept_s3_concept_classes]

/-- The pre-numeric stage leaves the datatype table exactly as the
class/datatype sync left it. -/
theorem sync_concept_preNumeric_datatypes (s : Store) (c : ConceptRecord) :
    (sync_concept_preNumeric s c).concept_datatypes =
      (classDtStore s c).concept_datatypes := by
  unfold sync_concept_preNumeric
  rw [insertDescriptions_concept_datatypes, insertNames_concept_datatypes,
    sync_concept_s3_concept_datatypes]

/-- The name table after the pre-numeric stage is exactly the output of the
name-insertion loop. -/
theorem sync_concept_preNumeric_names (s : Store) (c : ConceptRecord) :
    (sync_concept_preNumeric s c).concept_names =
      (insertNames (sync_concept_localId s c) (sync_concept_s3 s c)
        c.names).concept_names := by
  unfold sync_concept_preNumeric
  rw [insertDescriptions_concept_names]

/-- The find-or-create of the concept class guarantees its presence. -/
theorem syncConceptClass_present (s : Store) (nm : String) (ret : Bool) :
    (syncConceptClass s nm ret).concept_classes.any
      (fun r => r.name == nm) = true := by
  unfold syncConceptClass
  split
  · assumption
  · simp [List.any_append]

/-- The find-or-create of the concept datatype guarantees its presence. -/
theorem syncConceptDatatype_present (s : Store) (nm : String) :
    (syncConceptDatatype s nm).concept_datatypes.any
      (fun r => r == nm) = true := by
  unfold syncConceptDatatype
  split
  · assumption
  · simp [List.any_append]

/-- A present concept class makes the class find-or-create a no-op. -/
theorem syncConceptClass_noop (s : Store) (nm : String) (ret : Bool)
    (h : s.concept_classes.any (fun r => r.name == nm) = true) :
    syncConceptClass s nm ret = s := by
  unfold syncConceptClass; simp [h]

/-- A present concept datatype makes the datatype find-or-create a no-op. -/
theorem syncConceptDatatype_noop (s : Store) (nm : String)
    (h : s.concept_datatypes.any (fun r => r == nm) = true) :
    syncConceptDatatype s nm = s := by
  unfold syncConceptDatatype; simp [h]

theorem classDtStore_class_present (s : Store) (c : ConceptRecord) :
    (classDtStore s c).concept_classes.any
      (fun r => r.name == c.concept_class) = true := by
  unfold classDtStore
  rw [syncConceptDatatype_concept_classes]
  exact syncConceptClass_present s c.concept_class c.retired

theorem classDtStore_datatype_present (s : Store) (c : ConceptRecord) :
    (classDtStore s c).concept_datatypes.any
      (fun r => r == c.datatype) = true := by
  unfold classDtStore
  exact syncConceptDatatype_present _ c.datatype

/-- When both the class and the datatype are already present, the whole
class/datatype sync is a no-op. -/
theorem classDtStore_noop (s : Store) (c : ConceptRecord)
    (h1 : s.concept_classes.any (fun r => r.name == c.concept_class) = true)
    (h2 : s.concept_datatypes.any (fun r => r == c.datatype) = true) :
    classDtStore s c = s := by
  unfold classDtStore
  rw [syncConceptClass_noop s _ _ h1, syncConceptDatatype_noop s _ h2]

/-- `nameMatches` depends on a record only through its four filter-key
fields. -/
theorem nameMatches_key_eq (s : Store) (n m : NameRecord)
    (h1 : n.name = m.name) (h2 : n.name_type = m.name_type)
    (h3 : n.locale = m.locale) (h4 : n.locale_preferred = m.locale_preferred) :
    nameMatches s n = nameMatches s m := by
  simp only [nameMatches, nameRowMatches, h1, h2, h3, h4]

/-- The row inserted for a name tuple matches the tuple's own filter key. -/
theorem nameRowMatches_self (cid : Nat) (n : NameRecord) :
    nameRowMatches (nameRowOf cid n) n = true := by
  simp [nameRowOf, nameRowMatches]

/-- A name tuple whose filter key is already present keeps exactly its match
list across the whole name-insertion loop: the loop only appends rows for
keys that are absent at their turn. -/
theorem insertNames_pres (cid : Nat) (ns : List NameRecord) (s : Store)
    (m : NameRecord) (hm : nameMatches s m ≠ []) :
    nameMatches (insertNames cid s ns) m = nameMatches s m := by
  induction ns generalizing s with
  | nil => rfl
  | cons n ns ih =>
      show nameMatches (insertNames cid (insertName cid s n) ns) m = _
      cases hmn : (nameMatches s n).isEmpty
      · have hstep : insertName cid s n = s := by
          unfold insertName; simp [hmn]
        rw [hstep]
        exact ih s hm
      · have hn : nameMatches s n = [] := by
          cases h' : nameMatches s n
          · rfl
          · rw [h'] at hmn; exact absurd hmn (by simp)
        have hstep : insertName cid s n = { s with concept_names :=
            s.concept_names ++ [nameRowOf cid n] } := by
          unfold insertName; simp [hmn, nameRowOf]
        rw [hstep]
        have hrow : nameRowMatches (nameRowOf cid n) m = false := by
          cases hb : nameRowMatches (nameRowOf cid n) m
          · rfl
          · exfalso
            simp only [nameRowOf, nameRowMatches, Bool.and_eq_true,
              beq_iff_eq] at hb
            have hkey := nameMatches_key_eq s n m hb.1.1.1 hb.1.1.2 hb.1.2 hb.2
            rw [hn] at hkey
            exact hm hkey.symm
        have hext : nameMatches { s with concept_names :=
            s.concept_names ++ [nameRowOf cid n] } m = nameMatches s m := by
          show (s.concept_names ++ [nameRowOf cid n]).filter
            (fun r => nameRowMatches r m) = nameMatches s m
          rw [List.filter_append]
          simp [hrow, nameMatches]
        rw [ih _ (by rw [hext]; exact hm), hext]

/-- A name tuple whose filter key is absent before the name-insertion loop
ends up with exactly one matching row: the one the loop inserts for the
first tuple carrying that key, which carries the loop's concept id and the
tuple's name type. -/
theorem insertNames_fresh_single (cid : Nat) (ns : List NameRecord)
    (s : Store) (n : NameRecord) (hn : n ∈ ns)
    (h0 : nameMatches s n = []) :
    ∃ r, nameMatches (insertNames cid s ns) n = [r] ∧
      r.concept_id = cid ∧ r.concept_name_type = n.name_type := by
  induction ns generalizing s with
  | nil => exact absurd hn (List.not_mem_nil n)
  | cons a as ih =>
      show ∃ r, nameMatches (insertNames cid (insertName cid s a) as) n =
        [r] ∧ r.concept_id = cid ∧ r.concept_name_type = n.name_type
      rcases List.mem_cons.mp hn with heq | hmem
      · subst heq
        have hmn : (nameMatches s n).isEmpty = true := by rw [h0]; rfl
        have hstep : insertName cid s n = { s with concept_names :=
            s.concept_names ++ [nameRowOf cid n] } := by
          unfold insertName; simp [hmn, nameRowOf]
        rw [hstep]
        have hself : nameMatches { s with concept_names :=
            s.concept_names ++ [nameRowOf cid n] } n = [nameRowOf cid n] := by
          show (s.concept_names ++ [nameRowOf cid n]).filter
            (fun r => nameRowMatches r n) = _
          rw [List.filter_append,
            show s.concept_names.filter (fun r => nameRowMatches r n) = []
              from h0]
          simp [nameRowMatches_self]
        have hne : nameMatches { s with concept_names :=
            s.concept_names ++ [nameRowOf cid n] } n ≠ [] := by
          rw [hself]; simp
        exact ⟨nameRowOf cid n, by rw [insertNames_pres cid as _ n hne, hself],
          rfl, rfl⟩
      · cases hmn : (nameMatches s a).isEmpty
        · have hstep : insertName cid s a = s := by
            unfold insertName; simp [hmn]
          rw [hstep]
          exact ih s hmem h0
        · have hstep : insertName cid s a = { s with concept_names :=
              s.concept_names ++ [nameRowOf cid a] } := by
            unfold insertName; simp [hmn, nameRowOf]
          rw [hstep]
          cases hr : nameRowMatches (nameRowOf cid a) n
          · have h0' : nameMatches { s with concept_names :=
                s.concept_names ++ [nameRowOf cid a] } n = [] := by
              show (s.concept_names ++ [nameRowOf cid a]).filter
                (fun r => nameRowMatches r n) = []
              rw [List.filter_append,
                show s.concept_names.filter (fun r => nameRowMatches r n) = []
                  from h0]
              simp [hr]
            exact ih _ hmem h0'
          · have hkey : a.name_type = n.name_type := by
              simp only [nameRowOf, nameRowMatches, Bool.and_eq_true,
                beq_iff_eq] at hr
              exact hr.1.1.2
            have hsingle : nameMatches { s with concept_names :=
                s.concept_names ++ [nameRowOf cid a] } n = [nameRowOf cid a] := by
              show (s.concept_names ++ [nameRowOf cid a]).filter
                (fun r => nameRowMatches r n) = _
              rw [List.filter_append,
                show s.concept_names.filter (fun r => nameRowMatches r n) = []
                  from h0]
              simp [hr]
            have hne : nameMatches { s with concept_names :=
                s.concept_names ++ [nameRowOf cid a] } n ≠ [] := by
              rw [hsingle]; simp
            refine ⟨nameRowOf cid a,
              by rw [insertNames_pres cid as _ n hne, hsingle], rfl, ?_⟩
            show a.name_type = n.name_type
            exact hkey

/-- Every name tuple of the processed list has a matching row after the
name-insertion loop. -/
theorem insertNames_present (cid : Nat) (ns : List NameRecord) (s : Store)
    (n : NameRecord) (hn : n ∈ ns) :
    nameMatches (insertNames cid s ns) n ≠ [] := by
  cases h0 : nameMatches s n with
  | nil =>
      obtain ⟨r, hr, -, -⟩ := insertNames_fresh_single cid ns s n hn h0
      rw [hr]; simp
  | cons r rest =>
      rw [insertNames_pres cid ns s n (by rw [h0]; simp), h0]; simp

/-- When every name tuple already has a matching row, the name-insertion
loop changes nothing. -/
theorem insertNames_noop (cid : Nat) (s : Store) (ns : List NameRecord)
    (h : ∀ n ∈ ns, nameMatches s n ≠ []) :
    insertNames cid s ns = s := by
  induction ns with
  | nil => rfl
  | cons n ns ih =>
      have hemp : (nameMatches s n).isEmpty = false := by
        cases hm : nameMatches s n
        · exact absurd hm (h n (List.mem_cons_self n ns))
        · rfl
      have hstep : insertName cid s n = s := by
        unfold insertName; simp [hemp]
      show insertNames cid (insertName cid s n) ns = s
      rw [hstep]
      exact ih (fun m hm => h m (List.mem_cons_of_mem n hm))

/-- `descMatches` only reads the description table. -/
theorem descMatches_congr (s t : Store)
    (h : s.concept_descriptions = t.concept_descriptions) (cid : Nat)
    (d : DescriptionRecord) : descMatches s cid d = descMatches t cid d := by
  unfold descMatches; rw [h]

/-- The description-insertion loop only appends to the description table. -/
theorem insertDescriptions_descs_append (cid : Nat)
    (ds : List DescriptionRecord) (s : Store) :
    ∃ b, (insertDescriptions cid s ds).concept_descriptions =
      s.concept_descriptions ++ b := by
  induction ds generalizing s with
  | nil => exact ⟨[], by simp [insertDescriptions]⟩
  | cons d ds ih =>
      show ∃ b, (insertDescriptions cid (insertDescription cid s d)
        ds).concept_descriptions = s.concept_descriptions ++ b
      cases hmd : (descMatches s cid d).isEmpty
      · have hstep : insertDescription cid s d = s := by
          unfold insertDescription; simp [hmd]
        rw [hstep]
        exact ih s
      · have hstep : insertDescription cid s d = { s with
            concept_descriptions := s.concept_descriptions ++
              [⟨cid, d.description, d.external_id, d.locale⟩] } := by
          unfold insertDescription; simp [hmd]
        rw [hstep]
        obtain ⟨b, hb⟩ := ih _
        exact ⟨⟨cid, d.description, d.external_id, d.locale⟩ :: b,
          by rw [hb]; simp⟩

/-- Every description of the processed list has a matching row after the
description-insertion loop. -/
theorem insertDescriptions_present (cid : Nat) (ds : List DescriptionRecord)
    (s : Store) (d : DescriptionRecord) (hd : d ∈ ds) :
    descMatches (insertDescriptions cid s ds) cid d ≠ [] := by
  induction ds generalizing s with
  | nil => exact absurd hd (List.not_mem_nil d)
  | cons a as ih =>
      show descMatches (insertDescriptions cid (insertDescription cid s a) as)
        cid d ≠ []
      rcases List.mem_cons.mp hd with heq | hmem
      · subst heq
        have hne : descMatches (insertDescription cid s d) cid d ≠ [] := by
          cases hmd : (descMatches s cid d).isEmpty
          · have hstep : insertDescription cid s d = s := by
              unfold insertDescription; simp [hmd]
            rw [hstep]
            intro hc; rw [hc] at hmd; simp at hmd
          · have hstep : insertDescription cid s d = { s with
                concept_descriptions := s.concept_descriptions ++
                  [⟨cid, d.description, d.external_id, d.locale⟩] } := by
              unfold insertDescription; simp [hmd]
            rw [hstep]
            show (s.concept_descriptions ++
              ([⟨cid, d.description, d.external_id, d.locale⟩] :
                List ConceptDescriptionRow)).filter
                (fun (r : ConceptDescriptionRow) => r.concept_id == cid &&
                  r.description == d.description &&
                  r.uuid == d.external_id) ≠ []
            rw [List.filter_append]
            intro hc
            rcases List.append_eq_nil.mp hc with ⟨-, h2⟩
            simp at h2
        obtain ⟨b, hb⟩ := insertDescriptions_descs_append cid as
          (insertDescription cid s d)
        have hfinal : descMatches (insertDescriptions cid
            (insertDescription cid s d) as) cid d =
            descMatches (insertDescription cid s d) cid d ++
            b.filter (fun r => r.concept_id == cid &&
              r.description == d.description && r.uuid == d.external_id) := by
          unfold descMatches
          rw [hb, List.filter_append]
        rw [hfinal]
        intro hc
        exact hne (List.append_eq_nil.mp hc).1
      · exact ih _ hmem

/-- When every description already has a matching row, the
description-insertion loop changes nothing. -/
theorem insertDescriptions_noop (cid : Nat) (s : Store)
    (ds : List DescriptionRecord)
    (h : ∀ d ∈ ds, descMatches s cid d ≠ []) :
    insertDescriptions cid s ds = s := by
  induction ds with
  | nil => rfl
  | cons d ds ih =>
      have hemp : (descMatches s cid d).isEmpty = false := by
        cases hm : descMatches s cid d
        · exact absurd hm (h d (List.mem_cons_self d ds))
        · rfl
      have hstep : insertDescription cid s d = s := by
        unfold insertDescription; simp [hemp]
      show insertDescriptions cid (insertDescription cid s d) ds = s
      rw [hstep]
      exact ih (fun m hm => h m (List.mem_cons_of_mem d hm))

/-- The `at_lst_one` flag of the name-matching loop is monotone: once set,
no later iteration clears it. -/
theorem resolveStep_at_mono (s : Store) (st : ResolveSt) (n : NameRecord)
    (h : st.at_lst_one = true) : (resolveStep s st n).at_lst_one = true := by
  cases hm : nameMatches s n with
  | nil => simp only [resolveStep, hm]; exact h
  | cons r rest =>
      cases rest with
      | nil => simp only [resolveStep, hm]; split <;> rfl
      | cons b rest2 => simp only [resolveStep, hm]; split <;> rfl

theorem foldl_resolveStep_at_mono (s : Store) (ns : List NameRecord)
    (st : ResolveSt) (h : st.at_lst_one = true) :
    (ns.foldl (resolveStep s) st).at_lst_one = true := by
  induction ns generalizing st with
  | nil => exact h
  | cons n ns ih => exact ih _ (resolveStep_at_mono s st n h)

/-- An iteration whose name tuple has a nonempty match list raises the
`at_lst_one` flag. -/
theorem resolveStep_at_of_match (s : Store) (st : ResolveSt) (n : NameRecord)
    (h : nameMatches s n ≠ []) : (resolveStep s st n).at_lst_one = true := by
  cases hm : nameMatches s n with
  | nil => exact absurd hm h
  | cons r rest =>
      cases rest with
      | nil => simp only [resolveStep, hm]; split <;> rfl
      | cons b rest2 => simp only [resolveStep, hm]; split <;> rfl

/-- When every name tuple of a nonempty list has a match, the name-matching
loop ends with `at_lst_one` set. -/
theorem resolveNames_at_nonempty (s : Store) (ns : List NameRecord)
    (init : Nat) (h : ∀ n ∈ ns, nameMatches s n ≠ []) (hne : ns ≠ []) :
    (resolveNames s ns init).at_lst_one = true := by
  cases ns with
  | nil => exact absurd rfl hne
  | cons n rest =>
      unfold resolveNames
      rw [List.foldl_cons]
      exact foldl_resolveStep_at_mono s rest _
        (resolveStep_at_of_match s _ n (h n (List.mem_cons_self n rest)))

/-- When the name-matching loop ends with `at_lst_one` still clear, no name
tuple matched anything and the loop state is untouched. -/
theorem foldl_resolveStep_at_false (s : Store) (ns : List NameRecord)
    (st : ResolveSt)
    (h : (ns.foldl (resolveStep s) st).at_lst_one = false) :
    st.at_lst_one = false ∧ ∀ n ∈ ns, nameMatches s n = [] := by
  induction ns generalizing st with
  | nil => exact ⟨h, fun n hn => absurd hn (List.not_mem_nil n)⟩
  | cons n rest ih =>
      rw [List.foldl_cons] at h
      obtain ⟨h1, h2⟩ := ih _ h
      have hm : nameMatches s n = [] := by
        by_contra hc
        rw [resolveStep_at_of_match s st n hc] at h1
        exact absurd h1 (by simp)
      have hstep : resolveStep s st n = st := by
        unfold resolveStep; rw [hm]
      rw [hstep] at h1
      refine ⟨h1, fun m hmem => ?_⟩
      rcases List.mem_cons.mp hmem with he | hm2
      · subst he; exact hm
      · exact h2 m hm2

/-- Unfolding one step of the FULLY_SPECIFIED scan. -/
theorem fsScan_cons (a : ConceptNameRow) (m : List ConceptNameRow) (f : Bool)
    (c : Nat) :
    fsScan (a :: m) f c =
      if a.concept_name_type == "FULLY_SPECIFIED" then
        fsScan m true a.concept_id
      else fsScan m f c := by
  unfold fsScan
  rw [List.foldl_cons]
  cases ha : (a.concept_name_type == "FULLY_SPECIFIED") <;> simp [ha]

/-- The flag component of the FULLY_SPECIFIED scan. -/
theorem fsScan_fst (m : List ConceptNameRow) (f : Bool) (c : Nat) :
    (fsScan m f c).1 =
      (f || m.any (fun a => a.concept_name_type == "FULLY_SPECIFIED")) := by
  induction m generalizing f c with
  | nil => simp [fsScan]
  | cons a m ih =>
      rw [fsScan_cons]
      cases ha : (a.concept_name_type == "FULLY_SPECIFIED") <;>
        simp [ha, ih]

/-- Without any FULLY_SPECIFIED row the scan returns its input. -/
theorem fsScan_all_not (m : List ConceptNameRow) (f : Bool) (c : Nat)
    (h : m.any (fun a => a.concept_name_type == "FULLY_SPECIFIED") = false) :
    fsScan m f c = (f, c) := by
  induction m generalizing f c with
  | nil => rfl
  | cons a m ih =>
      rw [fsScan_cons]
      simp only [List.any_cons, Bool.or_eq_false_iff] at h
      rw [if_neg (by simp [h.1])]
      exact ih f c h.2

/-- With some FULLY_SPECIFIED row present, the scan result is independent of
its input state. -/
theorem fsScan_const (m : List ConceptNameRow)
    (h : m.any (fun a => a.concept_name_type == "FULLY_SPECIFIED") = true)
    (f : Bool) (c : Nat) (g : Bool) (e : Nat) :
    fsScan m f c = fsScan m g e := by
  induction m generalizing f c g e with
  | nil => simp at h
  | cons a m ih =>
      rw [fsScan_cons, fsScan_cons]
      cases ha : (a.concept_name_type == "FULLY_SPECIFIED")
      · have hm : m.any
            (fun a => a.concept_name_type == "FULLY_SPECIFIED") = true := by
          simp only [List.any_cons, ha, Bool.false_or] at h
          exact h
        rw [if_neg (by simp [ha]), if_neg (by simp [ha])]
        exact ih hm f c g e
      · rw [if_pos (by simp [ha]), if_pos (by simp [ha])]

/-- An iteration that sees exactly one row carrying the local id `L` keeps a
state locked onto `L` locked, and raises the flag. -/
theorem resolveStep_single_L (sB : Store) (L : Nat) (n : NameRecord)
    (st : ResolveSt) (r : ConceptNameRow) (hr : nameMatches sB n = [r])
    (hrc : r.concept_id = L) (hc : st.con_id = L) :
    (resolveStep sB st n).con_id = L ∧
    (resolveStep sB st n).at_lst_one = true := by
  obtain ⟨f, a, c⟩ := st
  simp only [resolveStep, hr]
  cases f
  · simp only [Bool.false_eq_true, if_false]
    exact ⟨hrc, trivial⟩
  · simp only [if_true]
    exact ⟨hc, trivial⟩

theorem foldl_resolveStep_single (sB : Store) (L : Nat)
    (ns : List NameRecord)
    (h : ∀ n ∈ ns, ∃ r, nameMatches sB n = [r] ∧ r.concept_id = L) :
    ∀ st : ResolveSt, st.con_id = L → st.at_lst_one = true →
      (ns.foldl (resolveStep sB) st).con_id = L ∧
      (ns.foldl (resolveStep sB) st).at_lst_one = true := by
  induction ns with
  | nil => exact fun st hc ha => ⟨hc, ha⟩
  | cons n rest ih =>
      intro st hc ha
      rw [List.foldl_cons]
      obtain ⟨r, hr, hrc⟩ := h n (List.mem_cons_self n rest)
      obtain ⟨hc2, ha2⟩ := resolveStep_single_L sB L n st r hr hrc hc
      exact ih (fun m hm => h m (List.mem_cons_of_mem n hm)) _ hc2 ha2

/-- A fully fresh re-run: when every name tuple of a nonempty list matches
exactly one row carrying `L`, the name-matching loop locks onto `L`. -/
theorem resolveNames_all_single (sB : Store) (L : Nat)
    (ns : List NameRecord) (init : Nat)
    (h : ∀ n ∈ ns, ∃ r, nameMatches sB n = [r] ∧ r.concept_id = L)
    (hne : ns ≠ []) :
    (resolveNames sB ns init).con_id = L ∧
    (resolveNames sB ns init).at_lst_one = true := by
  cases ns with
  | nil => exact absurd rfl hne
  | cons n rest =>
      unfold resolveNames
      rw [List.foldl_cons]
      obtain ⟨r, hr, hrc⟩ := h n (List.mem_cons_self n rest)
      have hstep : (resolveStep sB ⟨false, false, init⟩ n).con_id = L ∧
          (resolveStep sB ⟨false, false, init⟩ n).at_lst_one = true := by
        simp only [resolveStep, hr]
        exact ⟨hrc, rfl⟩
      exact foldl_resolveStep_single sB L rest
        (fun m hm => h m (List.mem_cons_of_mem n hm)) _ hstep.1 hstep.2

/-- One-step simulation: an iteration of the name-matching loop preserves
the invariant between a first run (over `sA`) and a second run (over `sB`)
whose stores are related pointwise by `NameCase`. -/
theorem resolveStep_inv (sA sB : Store) (L : Nat) (n : NameRecord)
    (st1 st2 : ResolveSt) (hn : NameCase sA sB L n)
    (hinv : ResolveInv L st1 st2) :
    ResolveInv L (resolveStep sA st1 n) (resolveStep sB st2 n) := by
  obtain ⟨f1, a1, c1⟩ := st1
  obtain ⟨f2, a2, c2⟩ := st2
  simp only [ResolveInv] at hinv ⊢
  rcases hn with ⟨hA, r, hB, hrc, hrt⟩ | ⟨hA, hB⟩
  · -- the tuple was fresh on run 1: run 1 is a no-op, run 2 sees [r]
    simp only [resolveStep, hA, hB]
    cases f2
    · simp only [Bool.false_eq_true, if_false]
      have hf1 : f1 = false := by
        rcases hinv with ⟨he, -⟩ | ⟨he, -⟩ | ⟨he, -, -⟩
        · exact he.symm
        · exact he.symm
        · exact absurd he (by simp)
      cases hfs : (r.concept_name_type == "FULLY_SPECIFIED")
      · exact Or.inr (Or.inl ⟨hf1.symm, hrc⟩)
      · exact Or.inr (Or.inr ⟨by trivial, hf1, hrc⟩)
    · simp only [if_true]
      simpa using hinv
  · -- the tuple was present on run 1: run 2 sees the identical list
    cases hm : nameMatches sA n with
    | nil => exact absurd hm hA
    | cons r rest =>
        have hB2 : nameMatches sB n = r :: rest := by rw [hB, hm]
        cases rest with
        | nil =>
            simp only [resolveStep, hm, hB2]
            cases f1
            · cases f2
              · simp only [Bool.false_eq_true, if_false]
                exact Or.inl ⟨by trivial, by trivial⟩
              · simp only [Bool.false_eq_true, if_false, if_true]
                rcases hinv with ⟨he, -⟩ | ⟨he, -⟩ | ⟨-, -, hc⟩
                · exact absurd he (by simp)
                · exact absurd he (by simp)
                · cases hfs : (r.concept_name_type == "FULLY_SPECIFIED")
                  · exact Or.inr (Or.inr ⟨by trivial, by trivial, hc⟩)
                  · exact Or.inr (Or.inl ⟨by trivial, hc⟩)
            · cases f2
              · rcases hinv with ⟨he, -⟩ | ⟨he, -⟩ | ⟨he, -, -⟩
                · exact absurd he (by simp)
                · exact absurd he (by simp)
                · exact absurd he (by simp)
              · simp only [if_true]
                simpa using hinv
        | cons b rest2 =>
            simp only [resolveStep, hm, hB2]
            cases hany : ((r :: b :: rest2).any
                (fun a => a.concept_name_type == "FULLY_SPECIFIED"))
            · rw [fsScan_all_not (r :: b :: rest2) f1 c1 hany,
                fsScan_all_not (r :: b :: rest2) f2 c2 hany]
              cases f1
              · cases f2
                · simp only [Bool.false_eq_true, if_false]
                  exact Or.inl ⟨by trivial, by trivial⟩
                · simp only [Bool.false_eq_true, if_false, if_true]
                  rcases hinv with ⟨he, -⟩ | ⟨he, -⟩ | ⟨-, -, hc⟩
                  · exact absurd he (by simp)
                  · exact absurd he (by simp)
                  · exact Or.inr (Or.inr ⟨by trivial, by trivial, hc⟩)
              · cases f2
                · rcases hinv with ⟨he, -⟩ | ⟨he, -⟩ | ⟨he, -, -⟩
                  · exact absurd he (by simp)
                  · exact absurd he (by simp)
                  · exact absurd he (by simp)
                · simp only [if_true]
                  rcases hinv with ⟨-, hc⟩ | ⟨-, hc⟩ | ⟨-, hf, -⟩
                  · exact Or.inl ⟨by trivial, hc⟩
                  · exact Or.inr (Or.inl ⟨by trivial, hc⟩)
                  · exact absurd hf (by simp)
            · have hpe := fsScan_const (r :: b :: rest2) hany f1 c1 f2 c2
              rw [hpe]
              have hp2 : (fsScan (r :: b :: rest2) f2 c2).1 = true := by
                rw [fsScan_fst, hany]; simp
              rw [hp2]
              simp only [if_true]
              exact Or.inl ⟨by trivial, by trivial⟩

/-- The simulation invariant is preserved along the whole name-matching
loop. -/
theorem foldl_resolveStep_inv (sA sB : Store) (L : Nat)
    (ns : List NameRecord) (h : ∀ n ∈ ns, NameCase sA sB L n) :
    ∀ st1 st2 : ResolveSt, ResolveInv L st1 st2 →
      ResolveInv L (ns.foldl (resolveStep sA) st1)
        (ns.foldl (resolveStep sB) st2) := by
  induction ns with
  | nil => exact fun st1 st2 hi => hi
  | cons n rest ih =>
      intro st1 st2 hi
      rw [List.foldl_cons, List.foldl_cons]
      exact ih (fun m hm => h m (List.mem_cons_of_mem n hm)) _ _
        (resolveStep_inv sA sB L n st1 st2 (h n (List.mem_cons_self n rest)) hi)

/-- Components of a successful `sync_concept` run that records an entry:
the guard passed, the recorded id is the resolved local id, the
class/datatype/name/description tables are those of the pre-numeric stage,
and for a Numeric record the final store holds a numeric row for the
recorded id. -/
theorem sync_concept_ok_full (s : Store) (c : ConceptRecord) (lid : Nat)
    (s1 : Store) (h : sync_concept s c = .ok (some lid, s1)) :
    (c.id == 0) = false ∧
    lid = sync_concept_localId s c ∧
    s1.concept_classes = (sync_concept_preNumeric s c).concept_classes ∧
    s1.concept_datatypes = (sync_concept_preNumeric s c).concept_datatypes ∧
    s1.concept_names = (sync_concept_preNumeric s c).concept_names ∧
    s1.concept_descriptions =
      (sync_concept_preNumeric s c).concept_descriptions ∧
    ((c.datatype == "Numeric") = true →
      (numericRows s1 lid).isEmpty = false) := by
  rw [sync_concept] at h
  split at h
  · simp at h
  · rename_i hc0
    have hc0' : (c.id == 0) = false := by
      cases hcc : (c.id == 0)
      · rfl
      · exact absurd hcc hc0
    split at h
    · split at h
      · split at h
        · simp at h
        · split at h
          · simp at h
          · simp only [Except.ok.injEq, Prod.mk.injEq, Option.some.injEq] at h
            obtain ⟨h1, h2⟩ := h
            subst h2
            refine ⟨hc0', h1.symm, rfl, rfl, rfl, rfl, fun hx => ?_⟩
            rw [← h1]
            unfold numericRows
            simp only [List.filter_append, List.filter_cons, List.filter_nil,
              beq_self_eq_true, if_true]
            exact isEmpty_append_singleton _ _
      · rename_i hemp
        simp only [Except.ok.injEq, Prod.mk.injEq, Option.some.injEq] at h
        obtain ⟨h1, h2⟩ := h
        subst h2
        refine ⟨hc0', h1.symm, rfl, rfl, rfl, rfl, fun hx => ?_⟩
        rw [← h1]
        cases he : (numericRows (sync_concept_preNumeric s c)
            (sync_concept_localId s c)).isEmpty
        · rfl
        · exact absurd he hemp
    · rename_i hdt
      simp only [Except.ok.injEq, Prod.mk.injEq, Option.some.injEq] at h
      obtain ⟨h1, h2⟩ := h
      subst h2
      exact ⟨hc0', h1.symm, rfl, rfl, rfl, rfl, fun hx => absurd hx hdt⟩

/-- C4: re-importing a concept record with at least one name tuple is
idempotent.  A successful first import that recorded local id `id1` and
produced store `s1` makes a second import of the same record from `s1`
record the same id and leave the store unchanged: the class and datatype
find-or-creates find their rows, every name tuple now matches (for a tuple
that was fresh, exactly the row the first run inserted with `id1`, so the
name loop resolves `id1` again), the creation branch is skipped, and the
name, description and numeric insertions all see their rows present. -/
theorem C4_concept_idempotent (s : Store) (c : ConceptRecord) (id1 : Nat)
    (s1 : Store) (hn : c.names ≠ [])
    (h : sync_concept s c = .ok (some id1, s1)) :
    sync_concept s1 c = .ok (some id1, s1) := by
  obtain ⟨hc0, hid, hcl, hdt, hnm, hds, hnum⟩ :=
    sync_concept_ok_full s c id1 s1 h
  have hcd1 : classDtStore s1 c = s1 := by
    apply classDtStore_noop
    · rw [hcl, sync_concept_preNumeric_classes]
      exact classDtStore_class_present s c
    · rw [hdt, sync_concept_preNumeric_datatypes]
      exact classDtStore_datatype_present s c
  have hseq : (sync_concept_s3 s c).concept_names =
      (classDtStore s c).concept_names := sync_concept_s3_concept_names s c
  have hnames_eq : s1.concept_names =
      (insertNames (sync_concept_localId s c) (sync_concept_s3 s c)
        c.names).concept_names := by
    rw [hnm, sync_concept_preNumeric_names]
  have hpres : ∀ n ∈ c.names, nameMatches s1 n ≠ [] := by
    intro n hmem
    rw [nameMatches_congr s1 _ hnames_eq n]
    exact insertNames_present _ c.names _ n hmem
  have hcase : ∀ n ∈ c.names, NameCase (classDtStore s c) s1 id1 n := by
    intro n hmem
    cases h0 : nameMatches (classDtStore s c) n with
    | nil =>
        left
        have h0' : nameMatches (sync_concept_s3 s c) n = [] := by
          rw [nameMatches_congr _ (classDtStore s c) hseq n]
          exact h0
        obtain ⟨r, hr, hrc, hrt⟩ := insertNames_fresh_single
          (sync_concept_localId s c) c.names (sync_concept_s3 s c) n hmem h0'
        refine ⟨h0, r, ?_, hrc.trans hid.symm, hrt⟩
        rw [nameMatches_congr s1 _ hnames_eq n]
        exact hr
    | cons r rest =>
        right
        constructor
        · rw [h0]; simp
        · rw [nameMatches_congr s1 _ hnames_eq n,
            insertNames_pres _ c.names _ n
              (by rw [nameMatches_congr _ (classDtStore s c) hseq n, h0]
                  simp),
            nameMatches_congr _ (classDtStore s c) hseq n, h0]
  have hres2 : (resolveNames s1 c.names c.id).at_lst_one = true ∧
      (resolveNames s1 c.names c.id).con_id = id1 := by
    have ha2 : (resolveNames s1 c.names c.id).at_lst_one = true :=
      resolveNames_at_nonempty s1 c.names c.id hpres hn
    cases hat1 : (resolveNames (classDtStore s c) c.names c.id).at_lst_one
    · obtain ⟨-, hall⟩ := foldl_resolveStep_at_false (classDtStore s c)
        c.names ⟨false, false, c.id⟩ hat1
      have hsingles : ∀ n ∈ c.names, ∃ r, nameMatches s1 n = [r] ∧
          r.concept_id = id1 := by
        intro n hmem
        rcases hcase n hmem with ⟨-, r, hr, hrc, -⟩ | ⟨hA, -⟩
        · exact ⟨r, hr, hrc⟩
        · exact absurd (hall n hmem) hA
      obtain ⟨hcon2, hat2⟩ := resolveNames_all_single s1 id1 c.names c.id
        hsingles hn
      exact ⟨hat2, hcon2⟩
    · have hL : (resolveNames (classDtStore s c) c.names c.id).con_id =
          id1 := by
        rw [hid]
        simp [sync_concept_localId, hat1]
      have hfold := foldl_resolveStep_inv (classDtStore s c) s1 id1 c.names
        hcase ⟨false, false, c.id⟩ ⟨false, false, c.id⟩
        (by unfold ResolveInv; exact Or.inl ⟨rfl, rfl⟩)
      unfold ResolveInv at hfold
      refine ⟨ha2, ?_⟩
      rcases hfold with ⟨-, hc⟩ | ⟨-, hc⟩ | ⟨-, -, hc⟩
      · exact hc.trans hL
      · exact hc
      · exact hc
  have hlid2 : sync_concept_localId s1 c = id1 := by
    unfold sync_concept_localId
    rw [hcd1]
    simp [hres2.1, hres2.2]
  have hs3 : sync_concept_s3 s1 c = s1 := by
    unfold sync_concept_s3
    rw [hcd1]
    simp [hres2.1]
  have hdpres : ∀ d ∈ c.descriptions, descMatches s1 id1 d ≠ [] := by
    intro d hd
    rw [descMatches_congr s1 (sync_concept_preNumeric s c) hds id1 d, hid]
    exact insertDescriptions_present (sync_concept_localId s c)
      c.descriptions _ d hd
  have hpre : sync_concept_preNumeric s1 c = s1 := by
    unfold sync_concept_preNumeric
    rw [hlid2, hs3, insertNames_noop id1 s1 c.names hpres,
      insertDescriptions_noop id1 s1 c.descriptions hdpres]
  have h0 : ¬ ((c.id == 0) = true) := by rw [hc0]; simp
  cases hdt2 : (c.datatype == "Numeric")
  · rw [sync_concept, if_neg h0, if_neg (by rw [hdt2]; simp), hlid2, hpre]
  · have hne : ¬ ((numericRows (sync_concept_preNumeric s1 c)
        (sync_concept_localId s1 c)).isEmpty = true) := by
      rw [hpre, hlid2, hnum hdt2]
      simp
    rw [sync_concept, if_neg h0, if_pos hdt2, if_neg hne, hlid2, hpre]

/-- Witness for C4: re-importing the concrete concept record `exConRec`
into the store its first import produced records the same local id 7 and
leaves the store unchanged. -/
theorem C4_concept_idempotent_w :
    sync_concept exConRecResult.2 exConRec = .ok (some 7, exConRecResult.2) :=
  C4_concept_idempotent exStoreC exConRec 7 exConRecResult.2 (by decide)
    (by decide)

end Omrs
